import Mathlib

/-!
# SpartanLogReader: a shallow embedding

A verification development for `GUI/src/Tools/SpartanLogReader.{h,cpp}` of
ElasticFusion: the reader that turns a recorded ROS bag (color images, depth
images, camera info) into a cursor over aligned RGB-D frames.

Modelling conventions.

* A bag is the list of its messages in the order a `rosbag::View` iterates them.
* `std::vector` is `List`; `push_back` appends at the end, `pop_back` is
  `List.dropLast`, `at(i)` is a bounds-checked lookup that throws.
* Reference outputs and object fields are passed explicitly as state.
* `exit(0)` and a thrown exception end a call with an `Outcome` other than `ok`;
  the state returned with it is the state at the moment the call stopped.
* Values taken from message fields wrap as they do in C++: `step`, `height` and
  `width` are `uint32` fields, so `step * height` is a product modulo 2^32, and a
  value stored in an `int` or `int32_t` (`depthSize`, `imageSize`, `pixels_width`,
  `pixels_height`) is carried into the range from -2^31 up to 2^31 - 1. Numbers
  of records held in memory and the cursor are exact integers, signed (`Int`)
  where the C++ field is signed.
* OpenCV and png++ are a `Backend` parameter: a function from file names to
  decoded bytes, which may fail.
* A `double` is only ever copied, never computed with; it is carried as an
  uninterpreted value of type `Double`.
-/

namespace Spartan

/-! ## Messages and containers -/

/-- A `double` value, carried as an uninterpreted token (its bit pattern). -/
abbrev Double := Nat

/-- The fields of `sensor_msgs::Image` that the reader looks at; `stamp_sec` and
`stamp_nsec` are `header.stamp.sec` and `header.stamp.nsec`. -/
structure Image where
  stamp_sec : Nat
  stamp_nsec : Nat
  height : Nat
  width : Nat
  encoding : String
  step : Nat
  data : List Nat
deriving DecidableEq, Repr

/-- The fields of `sensor_msgs::CameraInfo` that the reader looks at; `Kn` is `K[n]`. -/
structure CameraInfo where
  height : Nat
  width : Nat
  K0 : Double
  K1 : Double
  K2 : Double
  K3 : Double
  K4 : Double
  K5 : Double
  K6 : Double
  K7 : Double
  K8 : Double
deriving DecidableEq, Repr

/-- What a message carries. `m.instantiate<T>()` is non-null exactly when the
message carries a `T`. -/
inductive Payload where
  | image (img : Image)
  | cameraInfo (info : CameraInfo)
  | other
deriving DecidableEq, Repr

/-- A `rosbag::MessageInstance`: the topic it was recorded on and its payload. -/
structure MessageInstance where
  topic : String
  payload : Payload
deriving DecidableEq, Repr

/-- The call `m.instantiate<sensor_msgs::Image>()`, with `none` for the null pointer. -/
def MessageInstance.instantiateImage (m : MessageInstance) : Option Image :=
  match m.payload with
  | Payload.image img => some img
  | _ => none

/-- The call `m.instantiate<sensor_msgs::CameraInfo>()`, with `none` for the null pointer. -/
def MessageInstance.instantiateCameraInfo (m : MessageInstance) : Option CameraInfo :=
  match m.payload with
  | Payload.cameraInfo info => some info
  | _ => none

/-- A bag file: its messages in view order. -/
abbrev Bag := List MessageInstance

/-- Modelled from the spec: `rosbag::View view(bag, rosbag::TopicQuery(topics))`, library code
that is not part of these sources. The spec describes it as "querying records by a set
of channel names in container order": the messages whose topic is one of `topics`, in
the order of the bag. -/
def View (bag : Bag) (topics : List String) : List MessageInstance :=
  bag.filter (fun m => topics.contains m.topic)

/-- The `struct SpartanLogData` (SpartanLogReader.h). -/
structure SpartanLogData where
  ros_bag_filename : String
  image_depth_topic : String
  image_rgb_topic : String
  cam_info_topic : String
deriving DecidableEq, Repr

/-- The `class SpartanRgbdData` (SpartanLogReader.h). -/
structure SpartanRgbdData where
  images_rgb : List Image
  images_d : List Image
  cam_info : Option CameraInfo
deriving DecidableEq, Repr

/-- A default-constructed `SpartanRgbdData`: two empty vectors and a null pointer. -/
def SpartanRgbdData.empty : SpartanRgbdData :=
  { images_rgb := [], images_d := [], cam_info := none }

/-! ## Machine integers -/

/-- The value an `int` or `int32_t` holds after a value is stored in it: the value modulo
2^32, taken in the range from -2^31 up to 2^31 - 1. -/
def toInt32 (x : Int) : Int :=
  (x + 2147483648) % 4294967296 - 2147483648

/-- The product of two `uint32` values: multiplication modulo 2^32. -/
def mulUInt32 (a b : Nat) : Nat :=
  (a * b) % 4294967296

/-- The conversion of a `uint32` value to `int`. -/
def uint32ToInt (a : Nat) : Int :=
  toInt32 (a % 4294967296 : Nat)

/-- The expression `step * height` of an image record as `getCore` stores it in the
`int32_t` fields `depthSize` and `imageSize`: the `uint32` product, converted. -/
def Image.sizeInt32 (img : Image) : Int :=
  toInt32 (mulUInt32 img.step img.height : Nat)

/-! ## Channel matching -/

/-- The test `m.getTopic() == topic || ("/" + m.getTopic() == topic)` that guards every
branch of the loops in `spartanGetParams` and `loadBag`. -/
def topicMatches (t topic : String) : Bool :=
  t == topic || ("/" ++ t) == topic

/-! ## `loadBag` -/

/-- The body of the `BOOST_FOREACH` loop of `loadBag` (lines 83-105), for one message. -/
def loadBagStep (log_data : SpartanLogData) (log_rgbd_data : SpartanRgbdData)
    (m : MessageInstance) : SpartanRgbdData :=
  let s1 : SpartanRgbdData :=
    if topicMatches m.topic log_data.image_depth_topic then
      match m.instantiateImage with
      | some l_img => { log_rgbd_data with images_d := log_rgbd_data.images_d ++ [l_img] }
      | none => log_rgbd_data
    else log_rgbd_data
  let s2 : SpartanRgbdData :=
    if topicMatches m.topic log_data.image_rgb_topic then
      match m.instantiateImage with
      | some r_img => { s1 with images_rgb := s1.images_rgb ++ [r_img] }
      | none => s1
    else s1
  if topicMatches m.topic log_data.cam_info_topic then
    match m.instantiateCameraInfo with
    | some r_info => { s2 with cam_info := some r_info }
    | none => s2
  else s2

/-- The `while (size_rgb != size_d)` loop of `loadBag` (lines 113-122). -/
def trimLoop (size_rgb size_d : Nat) (log_rgbd_data : SpartanRgbdData) : SpartanRgbdData :=
  if size_rgb ≠ size_d then
    if size_rgb > size_d then
      trimLoop (size_rgb - 1) size_d
        { log_rgbd_data with images_rgb := log_rgbd_data.images_rgb.dropLast }
    else
      trimLoop size_rgb (size_d - 1)
        { log_rgbd_data with images_d := log_rgbd_data.images_d.dropLast }
  else log_rgbd_data
termination_by size_rgb + size_d
decreasing_by all_goals omega

/-- The function `loadBag(log_data, log_rgbd_data)`; `bag` is the content of the file
`log_data.ros_bag_filename`. -/
def loadBag (bag : Bag) (log_data : SpartanLogData) (log_rgbd_data : SpartanRgbdData) :
    SpartanRgbdData :=
  let topics := [log_data.image_depth_topic, log_data.image_rgb_topic, log_data.cam_info_topic]
  let view := View bag topics
  let collected := view.foldl (loadBagStep log_data) log_rgbd_data
  trimLoop collected.images_rgb.length collected.images_d.length collected

/-! ## `spartanGetParams` -/

/-- How a call ended. `ok` is a normal return; the others are the ways the C++ stops early. -/
inductive Outcome where
  /-- normal return -/
  | ok
  /-- the exception `std::out_of_range` thrown by `std::vector::at` -/
  | outOfRange
  /-- the call `exit(0)` after "Did not find camera info!" (line 57) -/
  | exitNoCameraInfo
  /-- the call `exit(0)` after "Am expecting 32FC1 encoded depth image" (line 239) -/
  | exitDepth
  /-- the call `exit(0)` after "Am not expecting compressed images" (line 251) -/
  | exitImage
  /-- the image library (png++ or OpenCV) could not deliver the image asset -/
  | backendError
deriving DecidableEq, Repr

/-- The six reference parameters of `spartanGetParams`. -/
structure CameraParams where
  pixels_width : Int
  pixels_height : Int
  fx : Double
  fy : Double
  cx : Double
  cy : Double
deriving DecidableEq, Repr

/-- The `BOOST_FOREACH` loop of `spartanGetParams` (lines 40-55) followed by lines 56-57,
over the messages still to be visited. -/
def spartanGetParamsLoop (cam_info_topic : String) (out : CameraParams) :
    List MessageInstance → Outcome × CameraParams
  | [] => (Outcome.exitNoCameraInfo, out)
  | m :: rest =>
    if topicMatches m.topic cam_info_topic then
      match m.instantiateCameraInfo with
      | some cam_info =>
        (Outcome.ok,
          { pixels_width := uint32ToInt cam_info.width
            pixels_height := uint32ToInt cam_info.height
            fx := cam_info.K0
            fy := cam_info.K4
            cx := cam_info.K2
            cy := cam_info.K5 })
      | none => spartanGetParamsLoop cam_info_topic out rest
    else spartanGetParamsLoop cam_info_topic out rest

/-- The function `spartanGetParams(log_data, pixels_width, pixels_height, fx, fy, cx, cy)`; `out` holds the
six reference parameters as the caller passed them, the result holds them at the end. -/
def spartanGetParams (bag : Bag) (log_data : SpartanLogData) (out : CameraParams) :
    Outcome × CameraParams :=
  let cam_info_topic := log_data.cam_info_topic
  let topics := [cam_info_topic]
  spartanGetParamsLoop cam_info_topic out (View bag topics)

/-! ## `ZeroPadNumber` -/

/-- The loop `for (int i = 0; i < 6 - str_length; i++) ret = "0" + ret;`, with the number of
iterations still to run. -/
def zeroPadLoop : Nat → String → String
  | 0, ret => ret
  | k + 1, ret => zeroPadLoop k ("0" ++ ret)

/-- The function `ZeroPadNumber(num)`: the decimal rendering of `num`, left-padded with zeros. -/
def ZeroPadNumber (num : Int) : String :=
  let ret := toString num
  let str_length : Int := ret.length
  zeroPadLoop (6 - str_length).toNat ret

/-! ## The decode backend -/

/-- The second argument of `cv::imread`. -/
inductive ImreadFlag where
  | CV_16UC1
  | IMREAD_COLOR
deriving DecidableEq, Repr

/-- The image libraries, as the reader sees them.

* `pngRewrite src dst` tells whether the png++ block of `getCore` (open `src`, recolor,
  write `dst`) runs to its end; it throws otherwise.
* `imread path flag` is the byte content `cv::imread(path, flag).ptr()` points to, or `none`
  when OpenCV returns an empty matrix. -/
structure Backend where
  pngRewrite : String → String → Bool
  imread : String → ImreadFlag → Option (List Nat)

/-- The directory `getCore` reads its image assets from. -/
def imagesDir : String :=
  "/home/peteflo/spartan/sandbox/fusion/fusion_1521222309.47/images/"

/-! ## The reader -/

/-- The state of a `SpartanLogReader`: the fields of the `LogReader` base class that the
member functions touch, and `log_rgbd_data`. The pointers `rgb` and `depth` alias
`decompressionBufferImage` and `decompressionBufferDepth` once `getCore` has run, so the
two buffers stand for them. `numPixels` is also the value of
`Resolution::getInstance().numPixels()`, from which the base class takes it. -/
structure SpartanLogReader where
  flipColors : Bool
  timestamp : Int
  currentFrame : Int
  numFrames : Int
  numPixels : Nat
  depthSize : Int
  imageSize : Int
  decompressionBufferDepth : List Nat
  decompressionBufferImage : List Nat
  log_rgbd_data : SpartanRgbdData
  file : String
deriving DecidableEq, Repr

/-- The call `v.at(i)` with an `int` index: a negative index converts to a huge unsigned
value, so it is out of range like any index past the end. -/
def vectorAt {α : Type} (v : List α) (i : Int) : Option α :=
  if i < 0 then none else v.get? i.toNat

/-- The conversion `header.stamp.toNSec()`. -/
def Image.toNSec (img : Image) : Int :=
  (img.stamp_sec : Int) * 1000000000 + img.stamp_nsec

/-- The call `memcpy(&buffer[0], src, n)`: the first `n` bytes of `buffer` are replaced. -/
def memcpy (buffer src : List Nat) (n : Nat) : List Nat :=
  src.take n ++ buffer.drop n

/-- The call `std::swap(rgb[i], rgb[j])`. -/
def swapBytes (rgb : List Nat) (i j : Nat) : List Nat :=
  match rgb.get? i, rgb.get? j with
  | some a, some b => (rgb.set i b).set j a
  | _, _ => rgb

/-- The loop `for (int i = 0; i < numPixels * 3; i += 3) std::swap(rgb[i + 0], rgb[i + 2]);`
from the value `i` onwards; `limit` is `numPixels * 3`. -/
def flipLoop (limit : Nat) (i : Nat) (rgb : List Nat) : List Nat :=
  if i < limit then flipLoop limit (i + 3) (swapBytes rgb (i + 0) (i + 2)) else rgb
termination_by limit - i
decreasing_by omega

/-- The constructor `SpartanLogReader(log_data, flipColors)`. `bag` is the content of the
bag file and `numPixels` the pixel count of the `Resolution` singleton. The base class
starts `timestamp` and `currentFrame` at zero; memory the C++ leaves uninitialised
(`depthSize`, `imageSize`, the fresh buffers) is shown as zeros. -/
def SpartanLogReader.construct (bag : Bag) (numPixels : Nat) (log_data : SpartanLogData)
    (flipColors : Bool) : SpartanLogReader :=
  let log_rgbd_data := loadBag bag log_data SpartanRgbdData.empty
  { flipColors := flipColors
    timestamp := 0
    currentFrame := 0
    numFrames := log_rgbd_data.images_rgb.length
    numPixels := numPixels
    depthSize := 0
    imageSize := 0
    decompressionBufferDepth := List.replicate (numPixels * 2) 0
    decompressionBufferImage := List.replicate (numPixels * 3) 0
    log_rgbd_data := log_rgbd_data
    file := log_data.ros_bag_filename }

/-- The member function `getCore()`. The products `numPixels * 4` and `numPixels * 3` are
`int` products; where they pass 2^31 - 1 the C++ is undefined and the model takes the
wrapped value. -/
def getCore (be : Backend) (r : SpartanLogReader) : Outcome × SpartanLogReader :=
  let padded := ZeroPadNumber r.currentFrame
  -- lines 201-223
  if r.currentFrame < 4 ∧
      be.pngRewrite (imagesDir ++ padded ++ "_rgb.png") (imagesDir ++ padded ++ "_rgbnew.png")
        = false then
    (Outcome.backendError, r)
  else
  -- line 225
  match vectorAt r.log_rgbd_data.images_rgb r.currentFrame with
  | none => (Outcome.outOfRange, r)
  | some img_rgb =>
  let r1 := { r with timestamp := img_rgb.toNSec }
  -- line 226
  match vectorAt r1.log_rgbd_data.images_d r1.currentFrame with
  | none => (Outcome.outOfRange, r1)
  | some img_d =>
  let r2 := { r1 with depthSize := img_d.sizeInt32 }
  -- line 227
  let r3 := { r2 with imageSize := img_rgb.sizeInt32 }
  -- lines 230-240
  if r3.depthSize = toInt32 ((r3.numPixels : Int) * 4) ∧ img_d.encoding = "32FC1" then
    match be.imread (imagesDir ++ padded ++ "_depth.png") ImreadFlag.CV_16UC1 with
    | none => (Outcome.backendError, r3)
    | some cv_depth =>
    if cv_depth.length < r3.numPixels * 2 then (Outcome.backendError, r3) else
    let r4 := { r3 with
      decompressionBufferDepth := memcpy r3.decompressionBufferDepth cv_depth (r3.numPixels * 2) }
    -- lines 244-252
    if r4.imageSize = toInt32 ((r4.numPixels : Int) * 3) then
      match be.imread (imagesDir ++ padded ++ "_rgb.png") ImreadFlag.IMREAD_COLOR with
      | none => (Outcome.backendError, r4)
      | some cv_rgb =>
      if cv_rgb.length < r4.numPixels * 3 then (Outcome.backendError, r4) else
      let r5 := { r4 with
        decompressionBufferImage := memcpy r4.decompressionBufferImage cv_rgb (r4.numPixels * 3) }
      -- lines 257-263
      let r6 :=
        if r5.flipColors then
          { r5 with decompressionBufferImage := flipLoop (r5.numPixels * 3) 0 r5.decompressionBufferImage }
        else r5
      -- line 265
      (Outcome.ok, { r6 with currentFrame := r6.currentFrame + 1 })
    else (Outcome.exitImage, r4)
  else (Outcome.exitDepth, r3)

/-- The member function `getBack()`. -/
def getBack (be : Backend) (r : SpartanLogReader) : Outcome × SpartanLogReader :=
  getCore be { r with currentFrame := r.numFrames }

/-- The member function `getNext()`. -/
def getNext (be : Backend) (r : SpartanLogReader) : Outcome × SpartanLogReader :=
  getCore be r

/-- The member function `fastForward(frame)`: it only prints a message. -/
def fastForward (r : SpartanLogReader) (_frame : Int) : SpartanLogReader :=
  r

/-- The member function `getNumFrames()`. -/
def getNumFrames (r : SpartanLogReader) : Int :=
  r.numFrames

/-- The member function `hasMore()`. -/
def hasMore (r : SpartanLogReader) : Bool :=
  decide (r.currentFrame + 1 < r.numFrames)

/-- The member function `rewind()`. -/
def rewind (r : SpartanLogReader) : SpartanLogReader :=
  { r with currentFrame := 0 }

/-- The member function `rewound()`. -/
def rewound (r : SpartanLogReader) : Bool :=
  decide (r.currentFrame = 0)

/-- The member function `getFile()`. -/
def getFile (r : SpartanLogReader) : String :=
  r.file

/-- The function `isSpartanLog(value)`: `std::equal` over the reversed ending against the
reversed value, after the length guard. -/
def isSpartanLog (value : String) : Bool :=
  let ending := ".bag"
  if ending.length > value.length then false
  else decide (ending.data.reverse = value.data.reverse.take ending.length)

/-! ## Notions used to state the properties -/

/-- The image records that `loadBag` accepts on `topic`, in container order: the messages
of the view whose topic passes the match test against `topic` and whose payload
instantiates as an image. -/
def acceptedImages (bag : Bag) (log_data : SpartanLogData) (topic : String) : List Image :=
  (View bag [log_data.image_depth_topic, log_data.image_rgb_topic, log_data.cam_info_topic]).filterMap
    (fun m => if topicMatches m.topic topic then m.instantiateImage else none)

/-- The raw color sequence: the records accepted on the color channel. -/
def rawColor (bag : Bag) (log_data : SpartanLogData) : List Image :=
  acceptedImages bag log_data log_data.image_rgb_topic

/-- The raw depth sequence: the records accepted on the depth channel. -/
def rawDepth (bag : Bag) (log_data : SpartanLogData) : List Image :=
  acceptedImages bag log_data log_data.image_depth_topic

/-- The facts the constructor establishes about a reader and every member function keeps:
`numFrames` is the common length of the two aligned vectors and the two decode buffers
have the sizes they were allocated with. -/
def SpartanLogReader.WellFormed (r : SpartanLogReader) : Prop :=
  r.numFrames = r.log_rgbd_data.images_rgb.length ∧
    r.log_rgbd_data.images_d.length = r.log_rgbd_data.images_rgb.length ∧
    r.decompressionBufferDepth.length = r.numPixels * 2 ∧
    r.decompressionBufferImage.length = r.numPixels * 3

instance (r : SpartanLogReader) : Decidable r.WellFormed := by
  unfold SpartanLogReader.WellFormed; infer_instance

/-- The decode backend succeeds for frame index `k` at a resolution of `numPixels` pixels:
the png++ block (run for `k < 4` only) completes, and both `cv::imread` calls deliver at
least the bytes that `getCore` copies. -/
def Backend.succeedsAt (be : Backend) (numPixels : Nat) (k : Int) : Bool :=
  (decide (4 ≤ k) ||
      be.pngRewrite (imagesDir ++ ZeroPadNumber k ++ "_rgb.png")
        (imagesDir ++ ZeroPadNumber k ++ "_rgbnew.png")) &&
    (match be.imread (imagesDir ++ ZeroPadNumber k ++ "_depth.png") ImreadFlag.CV_16UC1 with
      | some cv_depth => decide (numPixels * 2 ≤ cv_depth.length)
      | none => false) &&
    (match be.imread (imagesDir ++ ZeroPadNumber k ++ "_rgb.png") ImreadFlag.IMREAD_COLOR with
      | some cv_rgb => decide (numPixels * 3 ≤ cv_rgb.length)
      | none => false)

/-- Swapping the first and third byte of every 3-byte pixel group of a buffer, in the
words of the specification. -/
def swapPixels : List Nat → List Nat
  | a :: b :: c :: rest => c :: b :: a :: swapPixels rest
  | rest => rest

/-- A call of one of the public member functions. -/
inductive Call where
  | getNext
  | getBack
  | rewind
  | fastForward (frame : Int)
  | hasMore
  | rewound
  | getNumFrames
deriving DecidableEq, Repr

/-- The reader state a call leaves behind, whether the call returned normally or not. -/
def Call.run (be : Backend) (r : SpartanLogReader) : Call → SpartanLogReader
  | Call.getNext => (Spartan.getNext be r).2
  | Call.getBack => (Spartan.getBack be r).2
  | Call.rewind => Spartan.rewind r
  | Call.fastForward frame => Spartan.fastForward r frame
  | Call.hasMore => r
  | Call.rewound => r
  | Call.getNumFrames => r

/-- The reader state after a sequence of calls. -/
def runCalls (be : Backend) (r : SpartanLogReader) (calls : List Call) : SpartanLogReader :=
  calls.foldl (Call.run be) r

/-- The first camera-info record of the calibration view: the first message, in container
order, that the view for `cam_info_topic` delivers, that passes the match test and that
instantiates as a camera-info message. -/
def firstCameraInfo (bag : Bag) (cam_info_topic : String) : Option CameraInfo :=
  ((View bag [cam_info_topic]).filterMap
    (fun m => if topicMatches m.topic cam_info_topic then m.instantiateCameraInfo else none)).head?

/-- The reader state that `getCore` leaves when it returns normally, given the two records
at the cursor and the bytes the two `cv::imread` calls delivered (lines 225-265). -/
def decodedState (r : SpartanLogReader) (img_rgb img_d : Image) (cv_depth cv_rgb : List Nat) :
    SpartanLogReader :=
  { r with
    timestamp := img_rgb.toNSec
    depthSize := img_d.sizeInt32
    imageSize := img_rgb.sizeInt32
    decompressionBufferDepth := memcpy r.decompressionBufferDepth cv_depth (r.numPixels * 2)
    decompressionBufferImage :=
      if r.flipColors then
        flipLoop (r.numPixels * 3) 0 (memcpy r.decompressionBufferImage cv_rgb (r.numPixels * 3))
      else memcpy r.decompressionBufferImage cv_rgb (r.numPixels * 3)
    currentFrame := r.currentFrame + 1 }

/-- How a call of a public member function ends: the decoding calls end as `getCore`
does, the others only read or reset fields (or print) and return normally. -/
def Call.outcome (be : Backend) (r : SpartanLogReader) : Call → Outcome
  | Call.getNext => (Spartan.getNext be r).1
  | Call.getBack => (Spartan.getBack be r).1
  | Call.rewind => Outcome.ok
  | Call.fastForward _ => Outcome.ok
  | Call.hasMore => Outcome.ok
  | Call.rewound => Outcome.ok
  | Call.getNumFrames => Outcome.ok

/-- The discipline of a caller that steps with `getNext` only while `hasMore()` holds and
never calls `getBack`: every `getNext` of the sequence is issued in a state where
`hasMore()` is true. -/
def guardedCalls (be : Backend) : SpartanLogReader → List Call → Bool
  | _, [] => true
  | r, Call.getNext :: rest =>
    Spartan.hasMore r && guardedCalls be (Call.run be r Call.getNext) rest
  | _, Call.getBack :: _ => false
  | r, c :: rest => guardedCalls be (Call.run be r c) rest

/-- The record lookups of a call sequence: for every call that enters `getCore`, the index
at which `getCore` looks the records up, paired with the way that call ended. -/
def decodeTrace (be : Backend) : SpartanLogReader → List Call → List (Int × Outcome)
  | _, [] => []
  | r, Call.getNext :: rest =>
    (r.currentFrame, (Spartan.getNext be r).1) ::
      decodeTrace be (Call.run be r Call.getNext) rest
  | r, Call.getBack :: rest =>
    (r.numFrames, (Spartan.getBack be r).1) :: decodeTrace be (Call.run be r Call.getBack) rest
  | r, c :: rest => decodeTrace be (Call.run be r c) rest

/-- The number a string of decimal digits denotes, read from the left. -/
def decimalValue (s : String) : Nat :=
  s.data.foldl (fun acc c => acc * 10 + (c.toNat - 48)) 0

/-! ## Sample data -/

/-- A channel configuration. -/
def sampleLogData : SpartanLogData :=
  { ros_bag_filename := "log.bag"
    image_depth_topic := "/camera/depth"
    image_rgb_topic := "/camera/rgb"
    cam_info_topic := "/camera/info" }

/-- A color record of a 1x1 image: 3 bytes per row, one row. -/
def sampleColor (sec : Nat) : Image :=
  { stamp_sec := sec, stamp_nsec := 5, height := 1, width := 1, encoding := "bgr8", step := 3,
    data := [1, 2, 3] }

/-- A depth record of a 1x1 image: 4 bytes per row, one row, encoded as 32FC1. -/
def sampleDepth (sec : Nat) : Image :=
  { stamp_sec := sec, stamp_nsec := 7, height := 1, width := 1, encoding := "32FC1", step := 4,
    data := [0, 0, 128, 63] }

/-- A bag with one color and one depth record. -/
def sampleBag : Bag :=
  [ { topic := "/camera/rgb", payload := Payload.image (sampleColor 1) },
    { topic := "/camera/depth", payload := Payload.image (sampleDepth 1) } ]

/-- A bag with three color records and no depth record. -/
def colorOnlyBag : Bag :=
  [ { topic := "/camera/rgb", payload := Payload.image (sampleColor 1) },
    { topic := "/camera/rgb", payload := Payload.image (sampleColor 2) },
    { topic := "/camera/rgb", payload := Payload.image (sampleColor 3) } ]

/-- A bag with ten color records followed by seven depth records. -/
def tenSevenBag : Bag :=
  (List.range 10).map
      (fun k => { topic := "/camera/rgb", payload := Payload.image (sampleColor k) }) ++
    (List.range 7).map
      (fun k => { topic := "/camera/depth", payload := Payload.image (sampleDepth k) })

/-- A backend whose every call succeeds: it delivers two depth bytes and three color bytes. -/
def sampleBackend : Backend :=
  { pngRewrite := fun _ _ => true
    imread := fun _ flag =>
      match flag with
      | ImreadFlag.CV_16UC1 => some [232, 3]
      | ImreadFlag.IMREAD_COLOR => some [10, 20, 30] }

/-- A reader over one aligned frame of one pixel, as the constructor leaves it. -/
def sampleReader : SpartanLogReader :=
  { flipColors := false
    timestamp := 0
    currentFrame := 0
    numFrames := 1
    numPixels := 1
    depthSize := 0
    imageSize := 0
    decompressionBufferDepth := [0, 0]
    decompressionBufferImage := [0, 0, 0]
    log_rgbd_data :=
      { images_rgb := [sampleColor 1], images_d := [sampleDepth 1], cam_info := none }
    file := "log.bag" }

/-- A reader over two aligned frames of one pixel, as the constructor leaves it. -/
def twoFrameReader : SpartanLogReader :=
  { sampleReader with
    numFrames := 2
    log_rgbd_data :=
      { images_rgb := [sampleColor 1, sampleColor 2]
        images_d := [sampleDepth 1, sampleDepth 2]
        cam_info := none } }

/-- A depth record whose `step * height` is 4294967300, above the `uint32` range; as a
32-bit product it is 4. -/
def wrapDepth : Image :=
  { sampleDepth 1 with step := 2147483650, height := 2 }

/-- The sample reader with the oversized depth record as its only depth frame. -/
def wrapReader : SpartanLogReader :=
  { sampleReader with
    log_rgbd_data := { images_rgb := [sampleColor 1], images_d := [wrapDepth], cam_info := none } }

/-- A bag with one color record and the oversized depth record. -/
def wrapBag : Bag :=
  [ { topic := "/camera/rgb", payload := Payload.image (sampleColor 1) },
    { topic := "/camera/depth", payload := Payload.image wrapDepth } ]

/-- A camera-info record of a 640x480 camera. -/
def sampleInfo : CameraInfo :=
  { height := 480, width := 640, K0 := 525, K1 := 0, K2 := 319, K3 := 0, K4 := 526, K5 := 239,
    K6 := 0, K7 := 0, K8 := 1 }

/-- A bag with an image record and a camera-info record on the calibration channel. -/
def infoBag : Bag :=
  [ { topic := "/camera/info", payload := Payload.image (sampleColor 1) },
    { topic := "/camera/info", payload := Payload.cameraInfo sampleInfo } ]

/-- A camera-info record whose `width` is the largest `uint32` value. -/
def wideInfo : CameraInfo :=
  { sampleInfo with width := 4294967295 }

/-- A bag whose calibration record is the wide one. -/
def wideInfoBag : Bag :=
  [ { topic := "/camera/info", payload := Payload.cameraInfo wideInfo } ]

/-! ## Theorems -/

/-! ### `loadBag` -/

theorem loadBagStep_images_rgb (log_data : SpartanLogData) (s : SpartanRgbdData)
    (m : MessageInstance) :
    (loadBagStep log_data s m).images_rgb =
      s.images_rgb ++
        (if topicMatches m.topic log_data.image_rgb_topic then m.instantiateImage else none).toList := by
  unfold loadBagStep
  cases m.instantiateImage <;> cases m.instantiateCameraInfo <;>
    cases topicMatches m.topic log_data.image_depth_topic <;>
    cases topicMatches m.topic log_data.image_rgb_topic <;>
    cases topicMatches m.topic log_data.cam_info_topic <;> simp

theorem loadBagStep_images_d (log_data : SpartanLogData) (s : SpartanRgbdData)
    (m : MessageInstance) :
    (loadBagStep log_data s m).images_d =
      s.images_d ++
        (if topicMatches m.topic log_data.image_depth_topic then m.instantiateImage else none).toList := by
  unfold loadBagStep
  cases m.instantiateImage <;> cases m.instantiateCameraInfo <;>
    cases topicMatches m.topic log_data.image_depth_topic <;>
    cases topicMatches m.topic log_data.image_rgb_topic <;>
    cases topicMatches m.topic log_data.cam_info_topic <;> simp

theorem filterMap_eq_toList_bind {α β : Type} (f : α → Option β) (m : α) (rest : List α) :
    (m :: rest).filterMap f = (f m).toList ++ rest.filterMap f := by
  cases h : f m <;> simp [List.filterMap_cons, h]

theorem foldl_loadBagStep_images_rgb (log_data : SpartanLogData) (view : List MessageInstance) :
    ∀ s : SpartanRgbdData,
      (view.foldl (loadBagStep log_data) s).images_rgb =
        s.images_rgb ++ view.filterMap
          (fun m => if topicMatches m.topic log_data.image_rgb_topic then m.instantiateImage else none) := by
  induction view with
  | nil => intro s; simp
  | cons m rest ih =>
    intro s
    rw [List.foldl_cons, ih, loadBagStep_images_rgb, filterMap_eq_toList_bind, List.append_assoc]

theorem foldl_loadBagStep_images_d (log_data : SpartanLogData) (view : List MessageInstance) :
    ∀ s : SpartanRgbdData,
      (view.foldl (loadBagStep log_data) s).images_d =
        s.images_d ++ view.filterMap
          (fun m => if topicMatches m.topic log_data.image_depth_topic then m.instantiateImage else none) := by
  induction view with
  | nil => intro s; simp
  | cons m rest ih =>
    intro s
    rw [List.foldl_cons, ih, loadBagStep_images_d, filterMap_eq_toList_bind, List.append_assoc]

/-- The trimming loop, started on the two sizes, cuts both vectors to the shorter length
and leaves the camera info alone. -/
theorem trimLoop_eq (n : Nat) :
    ∀ (a b : Nat) (s : SpartanRgbdData), a + b = n →
      a = s.images_rgb.length → b = s.images_d.length →
      trimLoop a b s =
        { images_rgb := s.images_rgb.take (min a b)
          images_d := s.images_d.take (min a b)
          cam_info := s.cam_info } := by
  induction n using Nat.strong_induction_on with
  | _ n ih =>
    intro a b s hn ha hb
    rw [trimLoop]
    by_cases hab : a = b
    · subst hab
      simp only [ne_eq, not_true_eq_false, if_false, min_self]
      rw [List.take_of_length_le (le_of_eq ha.symm), List.take_of_length_le (le_of_eq hb.symm)]
    · rw [if_pos hab]
      by_cases hgt : a > b
      · rw [if_pos hgt]
        have hlen : a - 1 = s.images_rgb.dropLast.length := by rw [List.length_dropLast, ← ha]
        rw [ih (a - 1 + b) (by omega) (a - 1) b
          { s with images_rgb := s.images_rgb.dropLast } rfl hlen hb]
        have h1 : min (a - 1) b = min a b := by omega
        simp only [h1, List.dropLast_eq_take, List.take_take]
        have h2 : min (min a b) (s.images_rgb.length - 1) = min a b := by omega
        rw [h2]
      · rw [if_neg hgt]
        have hlen : b - 1 = s.images_d.dropLast.length := by rw [List.length_dropLast, ← hb]
        rw [ih (a + (b - 1)) (by omega) a (b - 1)
          { s with images_d := s.images_d.dropLast } rfl ha hlen]
        have h1 : min a (b - 1) = min a b := by omega
        simp only [h1, List.dropLast_eq_take, List.take_take]
        have h2 : min (min a b) (s.images_d.length - 1) = min a b := by omega
        rw [h2]

/-- What `loadBag` returns, for any starting data: the old vectors followed by the
accepted records, both cut to the shorter of the two lengths. -/
theorem loadBag_eq (bag : Bag) (log_data : SpartanLogData) (s : SpartanRgbdData) :
    (loadBag bag log_data s).images_rgb =
        (s.images_rgb ++ rawColor bag log_data).take
          (min (s.images_rgb ++ rawColor bag log_data).length
            (s.images_d ++ rawDepth bag log_data).length) ∧
      (loadBag bag log_data s).images_d =
        (s.images_d ++ rawDepth bag log_data).take
          (min (s.images_rgb ++ rawColor bag log_data).length
            (s.images_d ++ rawDepth bag log_data).length) := by
  unfold loadBag
  simp only []
  rw [trimLoop_eq _ _ _ _ rfl rfl rfl]
  simp only [foldl_loadBagStep_images_rgb, foldl_loadBagStep_images_d, rawColor, rawDepth,
    acceptedImages, and_self]

/-- C1. For every container and channel configuration, `loadBag` run on an empty
`SpartanRgbdData` leaves `images_rgb` and `images_d` with the same length `N`, the smaller
of the numbers of records accepted on the color and on the depth channel; each aligned
sequence is the first `N` elements of its raw sequence in container order, and
`getNumFrames()` of the reader constructed from the container returns `N`. -/
theorem loadBag_aligns (bag : Bag) (log_data : SpartanLogData) (numPixels : Nat)
    (flipColors : Bool) :
    (loadBag bag log_data SpartanRgbdData.empty).images_rgb.length =
        min (rawColor bag log_data).length (rawDepth bag log_data).length ∧
      (loadBag bag log_data SpartanRgbdData.empty).images_d.length =
        min (rawColor bag log_data).length (rawDepth bag log_data).length ∧
      (loadBag bag log_data SpartanRgbdData.empty).images_rgb =
        (rawColor bag log_data).take
          (min (rawColor bag log_data).length (rawDepth bag log_data).length) ∧
      (loadBag bag log_data SpartanRgbdData.empty).images_d =
        (rawDepth bag log_data).take
          (min (rawColor bag log_data).length (rawDepth bag log_data).length) ∧
      getNumFrames (SpartanLogReader.construct bag numPixels log_data flipColors) =
        ((min (rawColor bag log_data).length (rawDepth bag log_data).length : Nat) : Int) := by
  obtain ⟨h1, h2⟩ := loadBag_eq bag log_data SpartanRgbdData.empty
  simp only [SpartanRgbdData.empty, List.nil_append] at h1 h2
  have l1 : (loadBag bag log_data SpartanRgbdData.empty).images_rgb.length =
      min (rawColor bag log_data).length (rawDepth bag log_data).length := by
    rw [SpartanRgbdData.empty, h1, List.length_take]; omega
  have l2 : (loadBag bag log_data SpartanRgbdData.empty).images_d.length =
      min (rawColor bag log_data).length (rawDepth bag log_data).length := by
    rw [SpartanRgbdData.empty, h2, List.length_take]; omega
  refine ⟨l1, l2, h1, h2, ?_⟩
  simp only [getNumFrames, SpartanLogReader.construct]
  rw [l1]

/-! ### `getCore` -/

theorem vectorAt_eq_some_iff {α : Type} (v : List α) (i : Int) (a : α) :
    vectorAt v i = some a ↔ 0 ≤ i ∧ v.get? i.toNat = some a := by
  unfold vectorAt
  split_ifs with h
  · constructor
    · intro h'; cases h'
    · intro h'; omega
  · constructor
    · intro h'; exact ⟨by omega, h'⟩
    · intro h'; exact h'.2

theorem vectorAt_lt_length {α : Type} (v : List α) (i : Int) (a : α)
    (h : vectorAt v i = some a) : 0 ≤ i ∧ i < v.length := by
  rw [vectorAt_eq_some_iff] at h
  obtain ⟨h0, h1⟩ := h
  refine ⟨h0, ?_⟩
  rw [List.get?_eq_getElem?] at h1
  have := (List.getElem?_eq_some_iff.mp h1).1
  omega

theorem vectorAt_of_lt {α : Type} (v : List α) (i : Int) (h0 : 0 ≤ i) (h1 : i < v.length) :
    ∃ a, vectorAt v i = some a := by
  have hlt : i.toNat < v.length := by omega
  refine ⟨v[i.toNat], ?_⟩
  rw [vectorAt_eq_some_iff]
  refine ⟨h0, ?_⟩
  rw [List.get?_eq_getElem?]
  exact List.getElem?_eq_getElem hlt

theorem vectorAt_length {α : Type} (v : List α) (i : Int) (h : i = v.length) :
    vectorAt v i = none := by
  unfold vectorAt
  split_ifs with h'
  · rfl
  · rw [List.get?_eq_getElem?]
    apply List.getElem?_eq_none
    omega

/-- The reader data that `getCore` never writes. -/
theorem getCore_frame (be : Backend) (r : SpartanLogReader) :
    (getCore be r).2.numFrames = r.numFrames ∧
      (getCore be r).2.log_rgbd_data = r.log_rgbd_data ∧
      (getCore be r).2.numPixels = r.numPixels ∧
      (getCore be r).2.flipColors = r.flipColors ∧
      (getCore be r).2.file = r.file := by
  unfold getCore
  simp only []
  repeat' split
  all_goals simp

/-- A call of `getCore` that does not return normally leaves the cursor where it was. -/
theorem getCore_fail_cursor (be : Backend) (r : SpartanLogReader)
    (h : (getCore be r).1 ≠ Outcome.ok) : (getCore be r).2.currentFrame = r.currentFrame := by
  revert h
  unfold getCore
  simp only []
  repeat' split
  all_goals simp

/-- A call of `getCore` that returns normally found both records at the cursor and moved
the cursor one step. -/
theorem getCore_ok_cursor (be : Backend) (r : SpartanLogReader)
    (h : (getCore be r).1 = Outcome.ok) :
    (getCore be r).2.currentFrame = r.currentFrame + 1 ∧
      (∃ img_rgb, vectorAt r.log_rgbd_data.images_rgb r.currentFrame = some img_rgb) ∧
      (∃ img_d, vectorAt r.log_rgbd_data.images_d r.currentFrame = some img_d) := by
  revert h
  unfold getCore
  simp only []
  repeat' split
  all_goals simp_all

theorem toInt32_of_range (x : Int) (h0 : -2147483648 ≤ x) (h1 : x < 2147483648) :
    toInt32 x = x := by
  unfold toInt32
  omega

/-- A conversion of a `uint32` value below 2^31 to `int` keeps the value. -/
theorem uint32ToInt_of_lt (a : Nat) (h : a < 2147483648) : uint32ToInt a = (a : Int) := by
  unfold uint32ToInt
  rw [Nat.mod_eq_of_lt (by omega)]
  exact toInt32_of_range _ (by omega) (by exact_mod_cast h)

/-- The function `loadBag` with its trimming loop resolved. -/
theorem loadBag_unfold (bag : Bag) (log_data : SpartanLogData) (s : SpartanRgbdData) :
    loadBag bag log_data s =
      (let collected :=
          (View bag [log_data.image_depth_topic, log_data.image_rgb_topic,
            log_data.cam_info_topic]).foldl (loadBagStep log_data) s;
        { images_rgb :=
            collected.images_rgb.take (min collected.images_rgb.length collected.images_d.length)
          images_d :=
            collected.images_d.take (min collected.images_rgb.length collected.images_d.length)
          cam_info := collected.cam_info }) := by
  unfold loadBag
  simp only []
  rw [trimLoop_eq _ _ _ _ rfl rfl rfl]

/-- The sample reader is the reader the constructor builds from the sample bag. -/
theorem construct_sample :
    SpartanLogReader.construct sampleBag 1 sampleLogData false = sampleReader := by
  unfold SpartanLogReader.construct
  rw [loadBag_unfold]
  decide

/-- The reader with the oversized depth record is the one the constructor builds from
the bag that holds it. -/
theorem construct_wrap :
    SpartanLogReader.construct wrapBag 1 sampleLogData false = wrapReader := by
  unfold SpartanLogReader.construct
  rw [loadBag_unfold]
  decide

/-- On a well-formed reader `getBack` never returns normally: it moves the cursor to
`numFrames`, one past the last aligned frame, and `getCore` stops there. -/
theorem getBack_not_ok (be : Backend) (r : SpartanLogReader) (hwf : r.WellFormed) :
    (getBack be r).1 ≠ Outcome.ok ∧ (getBack be r).2.currentFrame = r.numFrames := by
  have hne : (getBack be r).1 ≠ Outcome.ok := by
    intro hok
    unfold getBack at hok
    obtain ⟨_, ⟨img, himg⟩, _⟩ := getCore_ok_cursor be _ hok
    have := vectorAt_lt_length _ _ _ himg
    have hn := hwf.1
    simp only at this
    omega
  refine ⟨hne, ?_⟩
  unfold getBack at hne ⊢
  rw [getCore_fail_cursor be _ hne]

/-- C2, evaluated at a failing input. The sample reader holds one aligned frame (N = 1)
with well-formed records, and the sample backend succeeds, so that `getNext` decodes
frame 0 = N - 1. On this reader `getBack` does not succeed: it stops with
`std::out_of_range`, the cursor at 1 = N, and timestamp, sizes and buffers as they were,
whereas the claim has it leave the decoded frame of index N - 1. -/
theorem getBack_sample_out_of_range :
    sampleReader.WellFormed ∧ sampleReader.numFrames = 1 ∧
      sampleBackend.succeedsAt sampleReader.numPixels 0 = true ∧
      sampleBackend.succeedsAt sampleReader.numPixels 1 = true ∧
      (getNext sampleBackend sampleReader).1 = Outcome.ok ∧
      getBack sampleBackend sampleReader =
        (Outcome.outOfRange, { sampleReader with currentFrame := 1 }) := by
  decide

/-! ### The cursor invariant -/

/-- One call keeps `numFrames` and the aligned vectors, and keeps the cursor between 0 and
`numFrames` when `numFrames` is the length of the color vector. -/
theorem Call.run_keeps (be : Backend) (r : SpartanLogReader) (c : Call)
    (hn : r.numFrames = r.log_rgbd_data.images_rgb.length)
    (h0 : 0 ≤ r.currentFrame) (h1 : r.currentFrame ≤ r.numFrames) :
    (Call.run be r c).numFrames = r.numFrames ∧
      (Call.run be r c).log_rgbd_data = r.log_rgbd_data ∧
      0 ≤ (Call.run be r c).currentFrame ∧
      (Call.run be r c).currentFrame ≤ r.numFrames := by
  have core : ∀ q : SpartanLogReader, q.numFrames = r.numFrames →
      q.log_rgbd_data = r.log_rgbd_data → 0 ≤ q.currentFrame → q.currentFrame ≤ r.numFrames →
      (getCore be q).2.numFrames = r.numFrames ∧
        (getCore be q).2.log_rgbd_data = r.log_rgbd_data ∧
        0 ≤ (getCore be q).2.currentFrame ∧ (getCore be q).2.currentFrame ≤ r.numFrames := by
    intro q hq1 hq2 hq3 hq4
    obtain ⟨f1, f2, _, _, _⟩ := getCore_frame be q
    refine ⟨by rw [f1, hq1], by rw [f2, hq2], ?_⟩
    by_cases hok : (getCore be q).1 = Outcome.ok
    · obtain ⟨hc, ⟨img, himg⟩, _⟩ := getCore_ok_cursor be q hok
      have hlt := vectorAt_lt_length _ _ _ himg
      rw [hq2] at hlt
      rw [hc]
      omega
    · rw [getCore_fail_cursor be q hok]
      exact ⟨hq3, hq4⟩
  cases c with
  | getNext => exact core r rfl rfl h0 h1
  | getBack =>
    have h2 : (0 : Int) ≤ r.numFrames := by omega
    exact core { r with currentFrame := r.numFrames } rfl rfl h2 (le_refl _)
  | rewind => exact ⟨rfl, rfl, le_refl _, by show (0 : Int) ≤ r.numFrames; omega⟩
  | fastForward frame => exact ⟨rfl, rfl, h0, h1⟩
  | hasMore => exact ⟨rfl, rfl, h0, h1⟩
  | rewound => exact ⟨rfl, rfl, h0, h1⟩
  | getNumFrames => exact ⟨rfl, rfl, h0, h1⟩

/-- A sequence of calls keeps `numFrames`, the aligned vectors and the cursor bounds. -/
theorem runCalls_keeps (be : Backend) (calls : List Call) :
    ∀ r : SpartanLogReader, r.numFrames = r.log_rgbd_data.images_rgb.length →
      0 ≤ r.currentFrame → r.currentFrame ≤ r.numFrames →
      (runCalls be r calls).numFrames = r.numFrames ∧
        (runCalls be r calls).log_rgbd_data = r.log_rgbd_data ∧
        0 ≤ (runCalls be r calls).currentFrame ∧
        (runCalls be r calls).currentFrame ≤ r.numFrames := by
  induction calls with
  | nil => intro r _ h0 h1; exact ⟨rfl, rfl, h0, h1⟩
  | cons c rest ih =>
    intro r hn h0 h1
    obtain ⟨k1, k2, k3, k4⟩ := Call.run_keeps be r c hn h0 h1
    have := ih (Call.run be r c) (by rw [k1, k2, hn]) k3 (by rw [k1]; exact k4)
    simp only [runCalls, List.foldl_cons] at this ⊢
    rw [k1, k2] at this
    exact this

/-- C4. In every state reached from a freshly constructed reader by a finite sequence of
`getNext`, `getBack`, `rewind`, `fastForward`, `hasMore`, `rewound` and `getNumFrames`
calls, failing calls included, the cursor satisfies `0 ≤ currentFrame ≤ numFrames`, and
`numFrames` still has the value the constructor gave it. -/
theorem cursor_within_bounds (be : Backend) (bag : Bag) (numPixels : Nat)
    (log_data : SpartanLogData) (flipColors : Bool) (calls : List Call) :
    0 ≤ (runCalls be (SpartanLogReader.construct bag numPixels log_data flipColors)
        calls).currentFrame ∧
      (runCalls be (SpartanLogReader.construct bag numPixels log_data flipColors)
        calls).currentFrame ≤
        (runCalls be (SpartanLogReader.construct bag numPixels log_data flipColors)
          calls).numFrames ∧
      (runCalls be (SpartanLogReader.construct bag numPixels log_data flipColors)
        calls).numFrames =
        (SpartanLogReader.construct bag numPixels log_data flipColors).numFrames := by
  have h := runCalls_keeps be calls
    (SpartanLogReader.construct bag numPixels log_data flipColors) rfl (le_refl _)
    (by show (0 : Int) ≤ ((loadBag bag log_data SpartanRgbdData.empty).images_rgb.length : Int)
        omega)
  obtain ⟨k1, _, k3, k4⟩ := h
  exact ⟨k3, by rw [k1]; exact k4, k1⟩

/-! ### Empty streams -/

/-- With no color record at the cursor `getCore` stops before it writes anything. -/
theorem getCore_no_record (be : Backend) (r : SpartanLogReader)
    (h : vectorAt r.log_rgbd_data.images_rgb r.currentFrame = none) :
    ((getCore be r).1 = Outcome.outOfRange ∨ (getCore be r).1 = Outcome.backendError) ∧
      (getCore be r).2 = r := by
  unfold getCore
  simp only [h]
  split_ifs <;> simp

/-- C5. For every container in which the color stream or the depth stream has no accepted
record, the constructed reader has `getNumFrames() = 0`, `hasMore()` is false right
after construction, and `getNext` and `getBack` both end with an error (the exception of
the bounds-checked lookup, or a backend error before it) without decoding anything: the
reader state, and with it the cursor 0, is as before. -/
theorem empty_stream_reader (be : Backend) (bag : Bag) (numPixels : Nat)
    (log_data : SpartanLogData) (flipColors : Bool)
    (h : rawColor bag log_data = [] ∨ rawDepth bag log_data = []) :
    getNumFrames (SpartanLogReader.construct bag numPixels log_data flipColors) = 0 ∧
      hasMore (SpartanLogReader.construct bag numPixels log_data flipColors) = false ∧
      ((getNext be (SpartanLogReader.construct bag numPixels log_data flipColors)).1 =
          Outcome.outOfRange ∨
        (getNext be (SpartanLogReader.construct bag numPixels log_data flipColors)).1 =
          Outcome.backendError) ∧
      (getNext be (SpartanLogReader.construct bag numPixels log_data flipColors)).2 =
        SpartanLogReader.construct bag numPixels log_data flipColors ∧
      ((getBack be (SpartanLogReader.construct bag numPixels log_data flipColors)).1 =
          Outcome.outOfRange ∨
        (getBack be (SpartanLogReader.construct bag numPixels log_data flipColors)).1 =
          Outcome.backendError) ∧
      (getBack be (SpartanLogReader.construct bag numPixels log_data flipColors)).2 =
        SpartanLogReader.construct bag numPixels log_data flipColors ∧
      (getNext be (SpartanLogReader.construct bag numPixels log_data flipColors)).2.currentFrame
        = 0 ∧
      (getBack be (SpartanLogReader.construct bag numPixels log_data flipColors)).2.currentFrame
        = 0 := by
  have hrgb : (loadBag bag log_data SpartanRgbdData.empty).images_rgb = [] := by
    have h1 := (loadBag_eq bag log_data SpartanRgbdData.empty).1
    simp only [SpartanRgbdData.empty, List.nil_append] at h1
    rw [SpartanRgbdData.empty, h1]
    rcases h with h | h <;> simp [h]
  have hcf : (SpartanLogReader.construct bag numPixels log_data flipColors).currentFrame = 0 :=
    rfl
  have hnf : (SpartanLogReader.construct bag numPixels log_data flipColors).numFrames = 0 := by
    show (((loadBag bag log_data SpartanRgbdData.empty).images_rgb.length : Nat) : Int) = 0
    rw [hrgb]; rfl
  have hdata : (SpartanLogReader.construct bag numPixels log_data flipColors).log_rgbd_data.images_rgb
      = [] := hrgb
  have hback : { SpartanLogReader.construct bag numPixels log_data flipColors with
      currentFrame := (SpartanLogReader.construct bag numPixels log_data flipColors).numFrames } =
      SpartanLogReader.construct bag numPixels log_data flipColors := by
    rw [hnf]; rfl
  have hnone : vectorAt
      (SpartanLogReader.construct bag numPixels log_data flipColors).log_rgbd_data.images_rgb
      (SpartanLogReader.construct bag numPixels log_data flipColors).currentFrame = none := by
    rw [hdata, hcf]; rfl
  obtain ⟨g1, g2⟩ := getCore_no_record be _ hnone
  have hb : getBack be (SpartanLogReader.construct bag numPixels log_data flipColors) =
      getCore be (SpartanLogReader.construct bag numPixels log_data flipColors) := by
    unfold getBack; rw [hback]
  refine ⟨hnf, ?_, g1, g2, ?_, ?_, ?_, ?_⟩
  · unfold hasMore; rw [hcf, hnf]; rfl
  · rw [hb]; exact g1
  · rw [hb]; exact g2
  · show (getCore be _).2.currentFrame = 0
    rw [g2, hcf]
  · rw [hb, g2, hcf]

/-- An instance: a bag with three color records and no depth record. -/
theorem empty_stream_reader_witness :
    (rawColor colorOnlyBag sampleLogData = [] ∨ rawDepth colorOnlyBag sampleLogData = []) ∧
      getNumFrames (SpartanLogReader.construct colorOnlyBag 1 sampleLogData false) = 0 ∧
      hasMore (SpartanLogReader.construct colorOnlyBag 1 sampleLogData false) = false ∧
      ((getNext sampleBackend (SpartanLogReader.construct colorOnlyBag 1 sampleLogData false)).1 =
          Outcome.outOfRange ∨
        (getNext sampleBackend (SpartanLogReader.construct colorOnlyBag 1 sampleLogData false)).1 =
          Outcome.backendError) ∧
      (getNext sampleBackend (SpartanLogReader.construct colorOnlyBag 1 sampleLogData false)).2 =
        SpartanLogReader.construct colorOnlyBag 1 sampleLogData false ∧
      ((getBack sampleBackend (SpartanLogReader.construct colorOnlyBag 1 sampleLogData false)).1 =
          Outcome.outOfRange ∨
        (getBack sampleBackend (SpartanLogReader.construct colorOnlyBag 1 sampleLogData false)).1 =
          Outcome.backendError) ∧
      (getBack sampleBackend (SpartanLogReader.construct colorOnlyBag 1 sampleLogData false)).2 =
        SpartanLogReader.construct colorOnlyBag 1 sampleLogData false ∧
      (getNext sampleBackend
        (SpartanLogReader.construct colorOnlyBag 1 sampleLogData false)).2.currentFrame = 0 ∧
      (getBack sampleBackend
        (SpartanLogReader.construct colorOnlyBag 1 sampleLogData false)).2.currentFrame = 0 :=
  ⟨Or.inr (by decide),
    empty_stream_reader sampleBackend colorOnlyBag 1 sampleLogData false (Or.inr (by decide))⟩

/-! ### Channel matching -/

theorem slash_append_ne (c : String) : "/" ++ c ≠ c := by
  intro h
  have := congrArg String.length h
  rw [String.length_append] at this
  have h1 : "/".length = 1 := rfl
  omega

theorem slash_slash_append_ne (c : String) : "/" ++ ("/" ++ c) ≠ c := by
  intro h
  have := congrArg String.length h
  rw [String.length_append, String.length_append] at this
  have h1 : "/".length = 1 := rfl
  omega

/-- C6 as stated fails: a record name that carries one leading "/" more than the
configured name is not accepted, although stripping that "/" makes the two equal. -/
theorem topicMatches_rejects_extra_slash :
    ¬ (topicMatches "/camera/rgb" "camera/rgb" = true ↔
        ("/camera/rgb" = "camera/rgb" ∨ "/camera/rgb" = "/" ++ "camera/rgb" ∨
          "/" ++ "/camera/rgb" = "camera/rgb")) := by
  decide

/-- C6, amended. For every record channel name `t` and configured channel name `c`, the
channel-match test used by `loadBag` and `spartanGetParams` accepts the record if and only
if `t` equals `c` verbatim or `t` equals `c` after adding one leading "/" to `t`; the
tolerance holds in this direction only: a record name `"/" + c` is never accepted for `c`. -/
theorem topicMatches_iff (t c : String) :
    (topicMatches t c = true ↔ (t = c ∨ "/" ++ t = c)) ∧
      topicMatches ("/" ++ c) c = false := by
  constructor
  · unfold topicMatches
    simp [Bool.or_eq_true, beq_iff_eq]
  · unfold topicMatches
    simp [Bool.or_eq_false_iff, slash_append_ne, slash_slash_append_ne]

/-! ### `spartanGetParams` -/

/-- The loop of `spartanGetParams` returns the values of the first accepted camera-info
message, or leaves the outputs alone and exits when there is none. -/
theorem spartanGetParamsLoop_eq (cam_info_topic : String) (out : CameraParams)
    (view : List MessageInstance) :
    spartanGetParamsLoop cam_info_topic out view =
      match (view.filterMap (fun m =>
          if topicMatches m.topic cam_info_topic then m.instantiateCameraInfo else none)).head? with
      | some cam_info =>
        (Outcome.ok,
          { pixels_width := uint32ToInt cam_info.width
            pixels_height := uint32ToInt cam_info.height
            fx := cam_info.K0
            fy := cam_info.K4
            cx := cam_info.K2
            cy := cam_info.K5 })
      | none => (Outcome.exitNoCameraInfo, out) := by
  induction view with
  | nil => rfl
  | cons m rest ih =>
    rw [spartanGetParamsLoop]
    by_cases hm : topicMatches m.topic cam_info_topic = true
    · cases hi : m.instantiateCameraInfo with
      | none => simp [hm, hi, ih, List.filterMap_cons]
      | some info => simp [hm, hi, List.filterMap_cons]
    · simp [hm, ih, List.filterMap_cons]

/-- C7 as stated fails: the first camera-info record of the bag below has
`width = 4294967295`; stored in the `int` output it is -1, so `pixels_width` is not the
record's `width`. -/
theorem spartanGetParams_wide_width :
    firstCameraInfo wideInfoBag sampleLogData.cam_info_topic = some wideInfo ∧
      wideInfo.width = 4294967295 ∧
      (spartanGetParams wideInfoBag sampleLogData ⟨0, 0, 0, 0, 0, 0⟩).1 = Outcome.ok ∧
      (spartanGetParams wideInfoBag sampleLogData ⟨0, 0, 0, 0, 0, 0⟩).2.pixels_width = -1 ∧
      ¬ ((spartanGetParams wideInfoBag sampleLogData ⟨0, 0, 0, 0, 0, 0⟩).2.pixels_width =
        (wideInfo.width : Int)) := by
  decide

/-- C7, amended. For every container and calibration channel, `spartanGetParams` returns
the values of the first record, in container order, that the calibration view delivers,
that passes the match test and that instantiates as a camera-info message: `pixels_width`
and `pixels_height` are `width` and `height` converted to `int` (the values themselves
whenever they are below 2^31), `fx = K[0]`, `fy = K[4]`, `cx = K[2]`, `cy = K[5]`. It ends
with the not-found outcome if and only if there is no such record, and then the six
outputs hold what the caller passed in. -/
theorem spartanGetParams_returns_first (bag : Bag) (log_data : SpartanLogData)
    (out : CameraParams) :
    (spartanGetParams bag log_data out =
        match firstCameraInfo bag log_data.cam_info_topic with
        | some cam_info =>
          (Outcome.ok,
            { pixels_width := toInt32 (cam_info.width % 4294967296 : Nat)
              pixels_height := toInt32 (cam_info.height % 4294967296 : Nat)
              fx := cam_info.K0
              fy := cam_info.K4
              cx := cam_info.K2
              cy := cam_info.K5 })
        | none => (Outcome.exitNoCameraInfo, out)) ∧
      (∀ cam_info, firstCameraInfo bag log_data.cam_info_topic = some cam_info →
        cam_info.width < 2147483648 → cam_info.height < 2147483648 →
        spartanGetParams bag log_data out =
          (Outcome.ok,
            { pixels_width := cam_info.width
              pixels_height := cam_info.height
              fx := cam_info.K0
              fy := cam_info.K4
              cx := cam_info.K2
              cy := cam_info.K5 })) ∧
      ((spartanGetParams bag log_data out).1 = Outcome.exitNoCameraInfo ↔
        firstCameraInfo bag log_data.cam_info_topic = none) := by
  have h : spartanGetParams bag log_data out =
      match firstCameraInfo bag log_data.cam_info_topic with
      | some cam_info =>
        (Outcome.ok,
          { pixels_width := uint32ToInt cam_info.width
            pixels_height := uint32ToInt cam_info.height
            fx := cam_info.K0
            fy := cam_info.K4
            cx := cam_info.K2
            cy := cam_info.K5 })
      | none => (Outcome.exitNoCameraInfo, out) := by
    unfold spartanGetParams firstCameraInfo
    exact spartanGetParamsLoop_eq _ _ _
  refine ⟨h, ?_, ?_⟩
  · intro cam_info hfirst hw hh
    rw [h, hfirst]
    simp only [uint32ToInt_of_lt _ hw, uint32ToInt_of_lt _ hh]
  · rw [h]
    cases firstCameraInfo bag log_data.cam_info_topic <;> simp

/-- An instance: the first camera-info record of the sample calibration bag, behind an
image record on the same channel, is a 640x480 one. -/
theorem spartanGetParams_returns_first_witness :
    firstCameraInfo infoBag sampleLogData.cam_info_topic = some sampleInfo ∧
      sampleInfo.width < 2147483648 ∧ sampleInfo.height < 2147483648 ∧
      spartanGetParams infoBag sampleLogData ⟨0, 0, 0, 0, 0, 0⟩ =
        (Outcome.ok,
          { pixels_width := 640, pixels_height := 480, fx := 525, fy := 526, cx := 319,
            cy := 239 }) :=
  ⟨by decide, by decide, by decide,
    (spartanGetParams_returns_first infoBag sampleLogData ⟨0, 0, 0, 0, 0, 0⟩).2.1 sampleInfo
      (by decide) (by decide) (by decide)⟩

/-! ### `hasMore` -/

/-- C8. For every reader state, `hasMore()` returns true if and only if
`currentFrame + 1 < numFrames`; with 7 frames it is true at position 0 and false at
position 6, and with at most one frame it is false at position 0. -/
theorem hasMore_iff (r : SpartanLogReader) :
    (hasMore r = true ↔ r.currentFrame + 1 < r.numFrames) ∧
      hasMore { r with currentFrame := 0, numFrames := 7 } = true ∧
      hasMore { r with currentFrame := 6, numFrames := 7 } = false ∧
      (∀ n : Int, n ≤ 1 → hasMore { r with currentFrame := 0, numFrames := n } = false) := by
  refine ⟨by simp [hasMore], by simp [hasMore], by simp [hasMore], ?_⟩
  intro n hn
  simp only [hasMore, decide_eq_false_iff_not]
  omega

/-- An instance: the sample reader, and a single frame for the last part. -/
theorem hasMore_iff_witness :
    (hasMore sampleReader = true ↔ sampleReader.currentFrame + 1 < sampleReader.numFrames) ∧
      hasMore { sampleReader with currentFrame := 0, numFrames := 7 } = true ∧
      hasMore { sampleReader with currentFrame := 6, numFrames := 7 } = false ∧
      (∀ n : Int, n ≤ 1 →
        hasMore { sampleReader with currentFrame := 0, numFrames := n } = false) ∧
      hasMore { sampleReader with currentFrame := 0, numFrames := 1 } = false :=
  ⟨(hasMore_iff sampleReader).1, (hasMore_iff sampleReader).2.1, (hasMore_iff sampleReader).2.2.1,
    (hasMore_iff sampleReader).2.2.2, (hasMore_iff sampleReader).2.2.2 1 (by decide)⟩

/-! ### Decoding and the color flip -/

theorem swapPixels_swapPixels : ∀ l : List Nat, swapPixels (swapPixels l) = l
  | [] => by simp [swapPixels]
  | [_] => by simp [swapPixels]
  | [_, _] => by simp [swapPixels]
  | a :: b :: c :: rest => by
    simp only [swapPixels]
    rw [swapPixels_swapPixels rest]

theorem swapBytes_cons (x : Nat) (l : List Nat) (i j : Nat) :
    swapBytes (x :: l) (i + 1) (j + 1) = x :: swapBytes l i j := by
  unfold swapBytes
  simp only [List.get?_cons_succ]
  cases l.get? i <;> cases l.get? j <;> simp [List.set_cons_succ]

theorem swapBytes_append (pre : List Nat) (a b c : Nat) (rest : List Nat) :
    swapBytes (pre ++ a :: b :: c :: rest) (pre.length + 0) (pre.length + 2) =
      pre ++ c :: b :: a :: rest := by
  induction pre with
  | nil => simp [swapBytes]
  | cons x pre ih =>
    have := swapBytes_cons x (pre ++ a :: b :: c :: rest) (pre.length + 0) (pre.length + 2)
    simp only [List.length_cons, List.cons_append] at this ⊢
    rw [show pre.length + 1 + 0 = pre.length + 0 + 1 by omega,
      show pre.length + 1 + 2 = pre.length + 2 + 1 by omega, this, ih]

theorem flipLoop_append (k : Nat) :
    ∀ (pre rest : List Nat), rest.length = 3 * k →
      flipLoop (pre.length + 3 * k) pre.length (pre ++ rest) = pre ++ swapPixels rest := by
  induction k with
  | zero =>
    intro pre rest hrest
    have : rest = [] := List.eq_nil_of_length_eq_zero (by omega)
    subst this
    rw [flipLoop]
    simp [swapPixels]
  | succ k ih =>
    intro pre rest hrest
    match rest, hrest with
    | a :: b :: c :: rest', hrest =>
      rw [flipLoop, if_pos (by omega), swapBytes_append]
      have h := ih (pre ++ [c, b, a]) rest' (by simp at hrest; omega)
      simp only [List.length_append, List.length_cons, List.length_nil, List.append_assoc,
        List.cons_append, List.nil_append] at h
      rw [show pre.length + 3 * (k + 1) = pre.length + (0 + 1 + 1 + 1) + 3 * k by omega,
        show pre.length + 3 = pre.length + (0 + 1 + 1 + 1) by omega, h]
      simp [swapPixels]
    | [], hrest => simp at hrest
    | [_], hrest => simp at hrest; omega
    | [_, _], hrest => simp at hrest; omega

theorem flipLoop_eq_swapPixels (n : Nat) (rgb : List Nat) (h : rgb.length = n * 3) :
    flipLoop (n * 3) 0 rgb = swapPixels rgb := by
  have := flipLoop_append n [] rgb (by omega)
  simpa [Nat.mul_comm] using this

/-- The conditions under which `getCore` returns normally, and the state it then leaves. -/
theorem getCore_eq_ok (be : Backend) (r : SpartanLogReader) (img_rgb img_d : Image)
    (cv_depth cv_rgb : List Nat)
    (hpng : r.currentFrame < 4 →
      be.pngRewrite (imagesDir ++ ZeroPadNumber r.currentFrame ++ "_rgb.png")
        (imagesDir ++ ZeroPadNumber r.currentFrame ++ "_rgbnew.png") = true)
    (hrgb : vectorAt r.log_rgbd_data.images_rgb r.currentFrame = some img_rgb)
    (hd : vectorAt r.log_rgbd_data.images_d r.currentFrame = some img_d)
    (hds : img_d.sizeInt32 = toInt32 ((r.numPixels : Int) * 4))
    (henc : img_d.encoding = "32FC1")
    (hcs : img_rgb.sizeInt32 = toInt32 ((r.numPixels : Int) * 3))
    (hcd : be.imread (imagesDir ++ ZeroPadNumber r.currentFrame ++ "_depth.png")
      ImreadFlag.CV_16UC1 = some cv_depth)
    (hld : r.numPixels * 2 ≤ cv_depth.length)
    (hcr : be.imread (imagesDir ++ ZeroPadNumber r.currentFrame ++ "_rgb.png")
      ImreadFlag.IMREAD_COLOR = some cv_rgb)
    (hlr : r.numPixels * 3 ≤ cv_rgb.length) :
    getCore be r = (Outcome.ok, decodedState r img_rgb img_d cv_depth cv_rgb) := by
  have hpng' : ¬ (r.currentFrame < 4 ∧
      be.pngRewrite (imagesDir ++ ZeroPadNumber r.currentFrame ++ "_rgb.png")
        (imagesDir ++ ZeroPadNumber r.currentFrame ++ "_rgbnew.png") = false) := by
    rintro ⟨h1, h2⟩
    rw [hpng h1] at h2
    cases h2
  unfold getCore decodedState
  simp only [if_neg hpng', hrgb, hd, hcd, hcr, hds, henc, hcs, not_lt.mpr hld, not_lt.mpr hlr,
    if_false, and_self, if_true]
  cases r.flipColors <;> simp

/-- A normal return of `getCore` means that every check passed and both images were
delivered. -/
theorem getCore_ok_inv (be : Backend) (r : SpartanLogReader)
    (hok : (getCore be r).1 = Outcome.ok) :
    ∃ img_rgb img_d cv_depth cv_rgb,
      (r.currentFrame < 4 →
        be.pngRewrite (imagesDir ++ ZeroPadNumber r.currentFrame ++ "_rgb.png")
          (imagesDir ++ ZeroPadNumber r.currentFrame ++ "_rgbnew.png") = true) ∧
      vectorAt r.log_rgbd_data.images_rgb r.currentFrame = some img_rgb ∧
      vectorAt r.log_rgbd_data.images_d r.currentFrame = some img_d ∧
      img_d.sizeInt32 = toInt32 ((r.numPixels : Int) * 4) ∧
      img_d.encoding = "32FC1" ∧
      img_rgb.sizeInt32 = toInt32 ((r.numPixels : Int) * 3) ∧
      be.imread (imagesDir ++ ZeroPadNumber r.currentFrame ++ "_depth.png")
        ImreadFlag.CV_16UC1 = some cv_depth ∧
      r.numPixels * 2 ≤ cv_depth.length ∧
      be.imread (imagesDir ++ ZeroPadNumber r.currentFrame ++ "_rgb.png")
        ImreadFlag.IMREAD_COLOR = some cv_rgb ∧
      r.numPixels * 3 ≤ cv_rgb.length := by
  revert hok
  unfold getCore
  simp only []
  repeat' split
  all_goals simp_all

theorem memcpy_length (buffer src : List Nat) (n : Nat) (hb : buffer.length = n)
    (hs : n ≤ src.length) : (memcpy buffer src n).length = n := by
  unfold memcpy
  rw [List.length_append, List.length_take, List.length_drop]
  omega

theorem memcpy_memcpy (buffer src : List Nat) (n : Nat) (hs : n ≤ src.length) :
    memcpy (memcpy buffer src n) src n = memcpy buffer src n := by
  unfold memcpy
  have hlen : (List.take n src).length = n := by rw [List.length_take]; omega
  rw [List.drop_append_eq_append_drop, hlen, Nat.sub_self, List.drop_zero,
    List.drop_of_length_le (le_of_eq hlen), List.nil_append]

/-- C9. For every frame index `i` and every backend output with which frame `i` decodes,
the color buffer decoded with `flipColors = true`, with byte 0 and byte 2 of every 3-byte
pixel group swapped once more, is the color buffer decoded with `flipColors = false`; and
decoding frame `i` a second time with `flipColors = false` leaves the depth and the color
buffer exactly as the first decode left them. -/
theorem flip_round_trip (be : Backend) (r : SpartanLogReader) (i : Int) (hwf : r.WellFormed)
    (hok : (getCore be { r with currentFrame := i, flipColors := true }).1 = Outcome.ok) :
    (getCore be { r with currentFrame := i, flipColors := false }).1 = Outcome.ok ∧
      swapPixels
          (getCore be { r with currentFrame := i, flipColors := true }).2.decompressionBufferImage =
        (getCore be { r with currentFrame := i, flipColors := false }).2.decompressionBufferImage ∧
      (getCore be
          { (getCore be { r with currentFrame := i, flipColors := false }).2 with
            currentFrame := i }).1 = Outcome.ok ∧
      (getCore be
          { (getCore be { r with currentFrame := i, flipColors := false }).2 with
            currentFrame := i }).2.decompressionBufferDepth =
        (getCore be { r with currentFrame := i, flipColors := false }).2.decompressionBufferDepth ∧
      (getCore be
          { (getCore be { r with currentFrame := i, flipColors := false }).2 with
            currentFrame := i }).2.decompressionBufferImage =
        (getCore be { r with currentFrame := i, flipColors := false }).2.decompressionBufferImage := by
  obtain ⟨img_rgb, img_d, cv_depth, cv_rgb, hpng, hrgb, hd, hds, henc, hcs, hcd, hld, hcr, hlr⟩ :=
    getCore_ok_inv be _ hok
  obtain ⟨_, _, _, hbuf⟩ := hwf
  have eT := getCore_eq_ok be { r with currentFrame := i, flipColors := true } img_rgb img_d
    cv_depth cv_rgb hpng hrgb hd hds henc hcs hcd hld hcr hlr
  have eF := getCore_eq_ok be { r with currentFrame := i, flipColors := false } img_rgb img_d
    cv_depth cv_rgb hpng hrgb hd hds henc hcs hcd hld hcr hlr
  have e2 := getCore_eq_ok be
    { decodedState { r with currentFrame := i, flipColors := false } img_rgb img_d cv_depth cv_rgb
      with currentFrame := i } img_rgb img_d
    cv_depth cv_rgb hpng hrgb hd hds henc hcs hcd hld hcr hlr
  have hlen : (memcpy r.decompressionBufferImage cv_rgb (r.numPixels * 3)).length =
      r.numPixels * 3 := memcpy_length _ _ _ hbuf hlr
  rw [eT, eF, e2]
  refine ⟨rfl, ?_, rfl, ?_, ?_⟩
  · show swapPixels (flipLoop (r.numPixels * 3) 0
        (memcpy r.decompressionBufferImage cv_rgb (r.numPixels * 3))) =
      memcpy r.decompressionBufferImage cv_rgb (r.numPixels * 3)
    rw [flipLoop_eq_swapPixels _ _ hlen, swapPixels_swapPixels]
  · show memcpy (memcpy r.decompressionBufferDepth cv_depth (r.numPixels * 2)) cv_depth
        (r.numPixels * 2) = memcpy r.decompressionBufferDepth cv_depth (r.numPixels * 2)
    exact memcpy_memcpy _ _ _ hld
  · show memcpy (memcpy r.decompressionBufferImage cv_rgb (r.numPixels * 3)) cv_rgb
        (r.numPixels * 3) = memcpy r.decompressionBufferImage cv_rgb (r.numPixels * 3)
    exact memcpy_memcpy _ _ _ hlr

/-- An instance: frame 0 of the sample reader with the sample backend. -/
theorem flip_round_trip_witness :
    sampleReader.WellFormed ∧
      (getCore sampleBackend { sampleReader with currentFrame := 0, flipColors := true }).1 =
        Outcome.ok ∧
      (getCore sampleBackend { sampleReader with currentFrame := 0, flipColors := false }).1 =
        Outcome.ok ∧
      swapPixels (getCore sampleBackend
          { sampleReader with currentFrame := 0, flipColors := true }).2.decompressionBufferImage =
        (getCore sampleBackend
          { sampleReader with currentFrame := 0, flipColors := false }).2.decompressionBufferImage ∧
      (getCore sampleBackend
          { (getCore sampleBackend { sampleReader with currentFrame := 0, flipColors := false }).2 with
            currentFrame := 0 }).1 = Outcome.ok ∧
      (getCore sampleBackend
          { (getCore sampleBackend { sampleReader with currentFrame := 0, flipColors := false }).2 with
            currentFrame := 0 }).2.decompressionBufferDepth =
        (getCore sampleBackend
          { sampleReader with currentFrame := 0, flipColors := false }).2.decompressionBufferDepth ∧
      (getCore sampleBackend
          { (getCore sampleBackend { sampleReader with currentFrame := 0, flipColors := false }).2 with
            currentFrame := 0 }).2.decompressionBufferImage =
        (getCore sampleBackend
          { sampleReader with currentFrame := 0, flipColors := false }).2.decompressionBufferImage :=
  ⟨by decide, by decide, flip_round_trip sampleBackend sampleReader 0 (by decide) (by decide)⟩

/-! ### Well-formed readers -/

theorem swapPixels_length : ∀ l : List Nat, (swapPixels l).length = l.length
  | [] => by simp [swapPixels]
  | [_] => by simp [swapPixels]
  | [_, _] => by simp [swapPixels]
  | a :: b :: c :: rest => by
    simp only [swapPixels, List.length_cons]
    rw [swapPixels_length rest]

/-- The constructor builds a well-formed reader. -/
theorem construct_wellFormed (bag : Bag) (numPixels : Nat) (log_data : SpartanLogData)
    (flipColors : Bool) :
    (SpartanLogReader.construct bag numPixels log_data flipColors).WellFormed := by
  obtain ⟨h1, h2⟩ := loadBag_eq bag log_data SpartanRgbdData.empty
  refine ⟨rfl, ?_, ?_, ?_⟩
  · show (loadBag bag log_data SpartanRgbdData.empty).images_d.length =
      (loadBag bag log_data SpartanRgbdData.empty).images_rgb.length
    rw [h1, h2, List.length_take, List.length_take]
    omega
  · show (List.replicate (numPixels * 2) 0).length = numPixels * 2
    exact List.length_replicate _ _
  · show (List.replicate (numPixels * 3) 0).length = numPixels * 3
    exact List.length_replicate _ _

/-- The function `getCore` keeps a well-formed reader well-formed, however it ends. -/
theorem getCore_wellFormed (be : Backend) (r : SpartanLogReader) (hwf : r.WellFormed) :
    (getCore be r).2.WellFormed := by
  obtain ⟨w1, w2, w3, w4⟩ := hwf
  obtain ⟨f1, f2, f3, _, _⟩ := getCore_frame be r
  refine ⟨by rw [f1, f2]; exact w1, by rw [f2]; exact w2, ?_, ?_⟩
  · rw [f3]
    unfold getCore
    simp only []
    repeat' split
    all_goals first
      | exact w3
      | (simp only []; apply memcpy_length _ _ _ w3; omega)
  · rw [f3]
    unfold getCore
    simp only []
    repeat' split
    all_goals first
      | exact w4
      | (simp only []; apply memcpy_length _ _ _ w4; omega)
      | (simp only []
         rw [flipLoop_eq_swapPixels _ _ (memcpy_length _ _ _ w4 (by omega)), swapPixels_length]
         apply memcpy_length _ _ _ w4; omega)


/-! ### Running `loadBag` again -/

theorem take_append_take {α : Type} (l : List α) (n m : Nat) (hn : n ≤ l.length)
    (hm : m = n + n) : (l.take n ++ l).take m = l.take n ++ l.take n := by
  have hlen : (l.take n).length = n := by rw [List.length_take]; omega
  subst hm
  have := @List.take_append _ (l.take n) l n
  rw [hlen] at this
  exact this

theorem append_self_eq_iff {α : Type} (l : List α) : l ++ l = l ↔ l.length = 0 := by
  constructor
  · intro h
    have := congrArg List.length h
    rw [List.length_append] at this
    omega
  · intro h
    rw [List.eq_nil_of_length_eq_zero h]
    rfl

/-- C10 as stated fails: on a bag with one color and one depth record the second run of
`loadBag`, applied to the data the first run produced, yields two frames where the first
run yielded one. -/
theorem loadBag_rerun_differs :
    ¬ ((loadBag sampleBag sampleLogData
          (loadBag sampleBag sampleLogData SpartanRgbdData.empty)).images_rgb =
        (loadBag sampleBag sampleLogData SpartanRgbdData.empty).images_rgb ∧
      (loadBag sampleBag sampleLogData
          (loadBag sampleBag sampleLogData SpartanRgbdData.empty)).images_d =
        (loadBag sampleBag sampleLogData SpartanRgbdData.empty).images_d) := by
  rw [loadBag_unfold, loadBag_unfold]
  decide

/-- C10, amended. `loadBag` appends to the data it is given: for every container and
channel configuration, applying `loadBag` a second time, with the same container and
channels, to the `SpartanRgbdData` produced by the first application yields, for color and
for depth, the aligned sequence of the first application followed by a second copy of it;
the sequences are those of the first application exactly when that one is empty. -/
theorem loadBag_again_appends (bag : Bag) (log_data : SpartanLogData) :
    (loadBag bag log_data (loadBag bag log_data SpartanRgbdData.empty)).images_rgb =
        (loadBag bag log_data SpartanRgbdData.empty).images_rgb ++
          (loadBag bag log_data SpartanRgbdData.empty).images_rgb ∧
      (loadBag bag log_data (loadBag bag log_data SpartanRgbdData.empty)).images_d =
        (loadBag bag log_data SpartanRgbdData.empty).images_d ++
          (loadBag bag log_data SpartanRgbdData.empty).images_d ∧
      (((loadBag bag log_data (loadBag bag log_data SpartanRgbdData.empty)).images_rgb =
          (loadBag bag log_data SpartanRgbdData.empty).images_rgb ∧
        (loadBag bag log_data (loadBag bag log_data SpartanRgbdData.empty)).images_d =
          (loadBag bag log_data SpartanRgbdData.empty).images_d) ↔
        (loadBag bag log_data SpartanRgbdData.empty).images_rgb.length = 0) := by
  obtain ⟨h1, h2⟩ := loadBag_eq bag log_data SpartanRgbdData.empty
  simp only [SpartanRgbdData.empty, List.nil_append] at h1 h2
  obtain ⟨k1, k2⟩ := loadBag_eq bag log_data (loadBag bag log_data SpartanRgbdData.empty)
  rw [SpartanRgbdData.empty] at k1 k2 ⊢
  have hN1 : (List.take (min (rawColor bag log_data).length (rawDepth bag log_data).length)
      (rawColor bag log_data)).length =
      min (rawColor bag log_data).length (rawDepth bag log_data).length := by
    rw [List.length_take]; omega
  have hN2 : (List.take (min (rawColor bag log_data).length (rawDepth bag log_data).length)
      (rawDepth bag log_data)).length =
      min (rawColor bag log_data).length (rawDepth bag log_data).length := by
    rw [List.length_take]; omega
  have e1 : (loadBag bag log_data (loadBag bag log_data ⟨[], [], none⟩)).images_rgb =
      (loadBag bag log_data ⟨[], [], none⟩).images_rgb ++
        (loadBag bag log_data ⟨[], [], none⟩).images_rgb := by
    rw [k1, h1, h2]
    apply take_append_take
    · omega
    · rw [List.length_append, List.length_append, hN1, hN2]; omega
  have e2 : (loadBag bag log_data (loadBag bag log_data ⟨[], [], none⟩)).images_d =
      (loadBag bag log_data ⟨[], [], none⟩).images_d ++
        (loadBag bag log_data ⟨[], [], none⟩).images_d := by
    rw [k2, h1, h2]
    apply take_append_take
    · omega
    · rw [List.length_append, List.length_append, hN1, hN2]; omega
  refine ⟨e1, e2, ?_⟩
  rw [e1, e2, append_self_eq_iff, append_self_eq_iff, h1, h2, hN1, hN2]
  simp

/-! ### Further checks on concrete containers -/

/-- The calibration view holds the messages recorded on the calibration channel itself, so
the first accepted camera-info record is the first message of the container with that
topic and a camera-info payload. -/
theorem firstCameraInfo_eq (bag : Bag) (cam_info_topic : String) :
    firstCameraInfo bag cam_info_topic =
      (bag.filterMap
        (fun m => if m.topic = cam_info_topic then m.instantiateCameraInfo else none)).head? := by
  unfold firstCameraInfo View
  rw [List.filterMap_filter]
  congr 2
  funext m
  by_cases h : m.topic = cam_info_topic
  · simp [h, topicMatches]
  · simp [h]

/-- Ten color records and seven depth records give a reader of seven frames, for which
`hasMore()` holds at position 0 and fails at position 6. -/
theorem construct_ten_seven :
    getNumFrames (SpartanLogReader.construct tenSevenBag 1 sampleLogData false) = 7 ∧
      hasMore (SpartanLogReader.construct tenSevenBag 1 sampleLogData false) = true ∧
      hasMore { SpartanLogReader.construct tenSevenBag 1 sampleLogData false with
        currentFrame := 6 } = false := by
  unfold SpartanLogReader.construct
  rw [loadBag_unfold]
  decide

/-! ### `rewind`, `rewound` and `fastForward` -/

/-- C11. For every reader state, after `rewind()` the cursor is 0 and `rewound()` returns
true, with `numFrames`, the aligned sequences and the decoded buffers unchanged; and in
every state `rewound()` returns true if and only if the cursor is 0. -/
theorem rewind_rewound (r : SpartanLogReader) :
    (rewind r).currentFrame = 0 ∧
      rewound (rewind r) = true ∧
      (rewind r).numFrames = r.numFrames ∧
      (rewind r).log_rgbd_data = r.log_rgbd_data ∧
      (rewind r).decompressionBufferDepth = r.decompressionBufferDepth ∧
      (rewind r).decompressionBufferImage = r.decompressionBufferImage ∧
      rewind r = { r with currentFrame := 0 } ∧
      (rewound r = true ↔ r.currentFrame = 0) := by
  refine ⟨rfl, ?_, rfl, rfl, rfl, rfl, rfl, ?_⟩
  · simp [rewound, rewind]
  · simp [rewound]

/-- C12. For every reader state and every integer argument `frame`, negative values and
values past the last frame included, `fastForward(frame)` returns normally and leaves
the cursor, `numFrames`, the aligned sequences, the timestamp, the declared sizes and
both pixel buffers unchanged: the whole reader state is as before. -/
theorem fastForward_no_effect (be : Backend) (r : SpartanLogReader) (frame : Int) :
    fastForward r frame = r ∧
      Call.run be r (Call.fastForward frame) = r ∧
      Call.outcome be r (Call.fastForward frame) = Outcome.ok ∧
      (fastForward r frame).currentFrame = r.currentFrame ∧
      (fastForward r frame).numFrames = r.numFrames ∧
      (fastForward r frame).log_rgbd_data = r.log_rgbd_data ∧
      (fastForward r frame).timestamp = r.timestamp ∧
      (fastForward r frame).depthSize = r.depthSize ∧
      (fastForward r frame).imageSize = r.imageSize ∧
      (fastForward r frame).decompressionBufferDepth = r.decompressionBufferDepth ∧
      (fastForward r frame).decompressionBufferImage = r.decompressionBufferImage :=
  ⟨rfl, rfl, rfl, rfl, rfl, rfl, rfl, rfl, rfl, rfl, rfl⟩

/-! ### `getNext` -/

theorem memcpy_eq_take (buffer src : List Nat) (n : Nat) (hb : buffer.length = n) :
    memcpy buffer src n = src.take n := by
  unfold memcpy
  rw [List.drop_of_length_le (le_of_eq hb), List.append_nil]

/-- The pixel-group swap exchanges the outer bytes of group `k` and keeps its middle byte. -/
theorem swapPixels_getElem? (k : Nat) :
    ∀ l : List Nat, 3 * k + 2 < l.length →
      (swapPixels l)[3 * k]? = l[3 * k + 2]? ∧
        (swapPixels l)[3 * k + 1]? = l[3 * k + 1]? ∧
        (swapPixels l)[3 * k + 2]? = l[3 * k]? := by
  induction k with
  | zero =>
    intro l hl
    match l, hl with
    | a :: b :: c :: rest, _ => simp [swapPixels]
  | succ k ih =>
    intro l hl
    match l, hl with
    | a :: b :: c :: rest, hl =>
      have hrest : 3 * k + 2 < rest.length := by
        simp only [List.length_cons] at hl
        omega
      obtain ⟨h1, h2, h3⟩ := ih rest hrest
      have e0 : 3 * (k + 1) = 3 * k + 1 + 1 + 1 := by omega
      have e1 : 3 * (k + 1) + 1 = 3 * k + 1 + 1 + 1 + 1 := by omega
      have e2 : 3 * (k + 1) + 2 = 3 * k + 2 + 1 + 1 + 1 := by omega
      rw [e2, e1, e0]
      simp only [swapPixels, List.getElem?_cons_succ]
      exact ⟨h1, h2, h3⟩

/-- C14. For every successful decode and the bytes `cv_depth`, `cv_rgb` the backend decoded
for it: with `flipColors` set, for every pixel index `k` below `numPixels` the output color
bytes at offsets `3k`, `3k+1`, `3k+2` are the backend bytes at offsets `3k+2`, `3k+1`, `3k`;
with `flipColors` unset the output color buffer is the backend's bytes (the `numPixels * 3`
that are copied); the depth buffer is the backend's depth bytes either way. -/
theorem flip_swaps_each_pixel (be : Backend) (r : SpartanLogReader) (cv_depth cv_rgb : List Nat)
    (hwf : r.WellFormed) (hok : (getCore be r).1 = Outcome.ok)
    (hcd : be.imread (imagesDir ++ ZeroPadNumber r.currentFrame ++ "_depth.png")
      ImreadFlag.CV_16UC1 = some cv_depth)
    (hcr : be.imread (imagesDir ++ ZeroPadNumber r.currentFrame ++ "_rgb.png")
      ImreadFlag.IMREAD_COLOR = some cv_rgb) :
    (r.flipColors = true → ∀ k : Nat, k < r.numPixels →
        (getCore be r).2.decompressionBufferImage[3 * k]? = cv_rgb[3 * k + 2]? ∧
        (getCore be r).2.decompressionBufferImage[3 * k + 1]? = cv_rgb[3 * k + 1]? ∧
        (getCore be r).2.decompressionBufferImage[3 * k + 2]? = cv_rgb[3 * k]?) ∧
      (r.flipColors = false →
        (getCore be r).2.decompressionBufferImage = cv_rgb.take (r.numPixels * 3)) ∧
      (getCore be r).2.decompressionBufferDepth = cv_depth.take (r.numPixels * 2) ∧
      (getCore be r).2.decompressionBufferImage.length = r.numPixels * 3 := by
  obtain ⟨img_rgb, img_d, cv_depth', cv_rgb', hpng, hrgb, hd, hds, henc, hcs, hcd', hld, hcr',
    hlr⟩ := getCore_ok_inv be r hok
  have ed : cv_depth' = cv_depth := by
    rw [hcd] at hcd'; exact (Option.some.inj hcd').symm
  have ec : cv_rgb' = cv_rgb := by
    rw [hcr] at hcr'; exact (Option.some.inj hcr').symm
  subst ed ec
  obtain ⟨_, _, hbd, hbi⟩ := hwf
  rw [getCore_eq_ok be r img_rgb img_d cv_depth' cv_rgb' hpng hrgb hd hds henc hcs hcd hld hcr hlr]
  have hlen : (List.take (r.numPixels * 3) cv_rgb').length = r.numPixels * 3 := by
    rw [List.length_take]; omega
  refine ⟨?_, ?_, ?_, ?_⟩
  · intro hflip k hk
    show (decodedState r img_rgb img_d cv_depth' cv_rgb').decompressionBufferImage[3 * k]? = _ ∧
      (decodedState r img_rgb img_d cv_depth' cv_rgb').decompressionBufferImage[3 * k + 1]? = _ ∧
      (decodedState r img_rgb img_d cv_depth' cv_rgb').decompressionBufferImage[3 * k + 2]? = _
    simp only [decodedState, hflip, if_true]
    rw [memcpy_eq_take _ _ _ hbi, flipLoop_eq_swapPixels _ _ hlen]
    obtain ⟨s1, s2, s3⟩ := swapPixels_getElem? k (List.take (r.numPixels * 3) cv_rgb')
      (by rw [hlen]; omega)
    rw [s1, s2, s3]
    refine ⟨?_, ?_, ?_⟩ <;> rw [List.getElem?_take, if_pos (by omega)]
  · intro hflip
    show (decodedState r img_rgb img_d cv_depth' cv_rgb').decompressionBufferImage = _
    simp only [decodedState, hflip]
    exact memcpy_eq_take _ _ _ hbi
  · show (decodedState r img_rgb img_d cv_depth' cv_rgb').decompressionBufferDepth = _
    simp only [decodedState]
    exact memcpy_eq_take _ _ _ hbd
  · show (decodedState r img_rgb img_d cv_depth' cv_rgb').decompressionBufferImage.length = _
    simp only [decodedState]
    rw [memcpy_eq_take _ _ _ hbi]
    cases r.flipColors
    · simpa using hlen
    · simp only [if_true]
      rw [flipLoop_eq_swapPixels _ _ hlen, swapPixels_length, hlen]

/-- An instance: frame 0 of the sample reader with `flipColors` set; the backend's color
bytes are 10, 20, 30. -/
theorem flip_swaps_each_pixel_witness :
    ({ sampleReader with flipColors := true } : SpartanLogReader).WellFormed ∧
      (getCore sampleBackend { sampleReader with flipColors := true }).1 = Outcome.ok ∧
      sampleBackend.imread (imagesDir ++ ZeroPadNumber 0 ++ "_depth.png") ImreadFlag.CV_16UC1 =
        some [232, 3] ∧
      sampleBackend.imread (imagesDir ++ ZeroPadNumber 0 ++ "_rgb.png") ImreadFlag.IMREAD_COLOR =
        some [10, 20, 30] ∧
      (getCore sampleBackend
        { sampleReader with flipColors := true }).2.decompressionBufferImage[3 * 0]? =
          [10, 20, 30][3 * 0 + 2]? ∧
      (getCore sampleBackend
        { sampleReader with flipColors := true }).2.decompressionBufferImage[3 * 0 + 1]? =
          [10, 20, 30][3 * 0 + 1]? ∧
      (getCore sampleBackend
        { sampleReader with flipColors := true }).2.decompressionBufferImage[3 * 0 + 2]? =
          [10, 20, 30][3 * 0]? ∧
      (getCore sampleBackend { sampleReader with flipColors := true }).2.decompressionBufferDepth =
        [232, 3] :=
  ⟨by decide, by decide, rfl, rfl,
    ((flip_swaps_each_pixel sampleBackend { sampleReader with flipColors := true } [232, 3]
      [10, 20, 30] (by decide) (by decide) rfl rfl).1 rfl 0 (by decide)).1,
    ((flip_swaps_each_pixel sampleBackend { sampleReader with flipColors := true } [232, 3]
      [10, 20, 30] (by decide) (by decide) rfl rfl).1 rfl 0 (by decide)).2.1,
    ((flip_swaps_each_pixel sampleBackend { sampleReader with flipColors := true } [232, 3]
      [10, 20, 30] (by decide) (by decide) rfl rfl).1 rfl 0 (by decide)).2.2,
    (flip_swaps_each_pixel sampleBackend { sampleReader with flipColors := true } [232, 3]
      [10, 20, 30] (by decide) (by decide) rfl rfl).2.2.1⟩

/-! ### `ZeroPadNumber` -/

theorem toDigitsCore_step (fuel n : Nat) (ds : List Char) :
    Nat.toDigitsCore 10 (fuel + 1) n ds =
      if n / 10 = 0 then Nat.digitChar (n % 10) :: ds
      else Nat.toDigitsCore 10 fuel (n / 10) (Nat.digitChar (n % 10) :: ds) := by
  simp only [Nat.toDigitsCore]

/-- With enough fuel the digit loop prepends the digits of `n` to the accumulator. -/
theorem toDigitsCore_eq (n : Nat) :
    ∀ (fuel : Nat) (ds : List Char), n < fuel →
      Nat.toDigitsCore 10 fuel n ds = Nat.toDigits 10 n ++ ds := by
  induction n using Nat.strong_induction_on with
  | _ n ih =>
    intro fuel ds hf
    obtain ⟨f, rfl⟩ : ∃ f, fuel = f + 1 := ⟨fuel - 1, by omega⟩
    unfold Nat.toDigits
    rw [toDigitsCore_step, toDigitsCore_step]
    by_cases h : n / 10 = 0
    · simp [h]
    · rw [if_neg h, if_neg h]
      have hlt : n / 10 < n := by omega
      rw [ih (n / 10) hlt f _ (by omega), ih (n / 10) hlt n _ hlt]
      simp

/-- The decimal digits of `n`: one digit below ten, else the digits of `n / 10` followed
by the last digit. -/
theorem toDigits_rec (n : Nat) :
    Nat.toDigits 10 n =
      if n < 10 then [Nat.digitChar n]
      else Nat.toDigits 10 (n / 10) ++ [Nat.digitChar (n % 10)] := by
  conv_lhs => unfold Nat.toDigits
  rw [toDigitsCore_step]
  by_cases h : n < 10
  · have h1 : n / 10 = 0 := by omega
    have h2 : n % 10 = n := by omega
    simp [h, h1, h2]
  · have h1 : ¬ n / 10 = 0 := by omega
    rw [if_neg h1, if_neg h]
    exact toDigitsCore_eq (n / 10) n _ (by omega)

theorem digitChar_value (m : Nat) (h : m < 10) :
    (Nat.digitChar m).toNat - 48 = m ∧ (Nat.digitChar m).isDigit = true := by
  interval_cases m <;> decide

theorem toDigits_length_le (k : Nat) :
    ∀ n : Nat, n < 10 ^ (k + 1) → (Nat.toDigits 10 n).length ≤ k + 1 := by
  induction k with
  | zero =>
    intro n hn
    rw [toDigits_rec, if_pos (by simpa using hn)]
    simp
  | succ k ih =>
    intro n hn
    rw [toDigits_rec]
    split_ifs with h
    · simp
    · have : n / 10 < 10 ^ (k + 1) := by
        rw [Nat.div_lt_iff_lt_mul (by decide)]
        rw [pow_succ] at hn
        exact hn
      have := ih (n / 10) this
      simp only [List.length_append, List.length_singleton]
      omega

theorem toDigits_length_gt (k : Nat) :
    ∀ n : Nat, 10 ^ k ≤ n → k + 1 ≤ (Nat.toDigits 10 n).length := by
  induction k with
  | zero =>
    intro n _
    rw [toDigits_rec]
    split_ifs <;> simp
  | succ k ih =>
    intro n hn
    rw [toDigits_rec]
    have h10 : ¬ n < 10 := by
      have : 10 ^ 1 ≤ 10 ^ (k + 1) := Nat.pow_le_pow_right (by decide) (by omega)
      omega
    rw [if_neg h10]
    have : 10 ^ k ≤ n / 10 := by
      rw [Nat.le_div_iff_mul_le (by decide)]
      rw [pow_succ] at hn
      exact hn
    have := ih (n / 10) this
    simp only [List.length_append, List.length_singleton]
    omega

theorem toDigits_value (n : Nat) :
    (Nat.toDigits 10 n).foldl (fun acc c => acc * 10 + (c.toNat - 48)) 0 = n := by
  induction n using Nat.strong_induction_on with
  | _ n ih =>
    rw [toDigits_rec]
    split_ifs with h
    · simp [(digitChar_value n h).1]
    · rw [List.foldl_append, ih (n / 10) (by omega)]
      simp only [List.foldl_cons, List.foldl_nil]
      rw [(digitChar_value (n % 10) (Nat.mod_lt _ (by decide))).1]
      omega

theorem toDigits_isDigit (n : Nat) : ∀ c ∈ Nat.toDigits 10 n, c.isDigit = true := by
  induction n using Nat.strong_induction_on with
  | _ n ih =>
    rw [toDigits_rec]
    split_ifs with h
    · intro c hc
      simp only [List.mem_singleton] at hc
      rw [hc]
      exact (digitChar_value n h).2
    · intro c hc
      rw [List.mem_append] at hc
      rcases hc with hc | hc
      · exact ih (n / 10) (by omega) c hc
      · simp only [List.mem_singleton] at hc
        rw [hc]
        exact (digitChar_value (n % 10) (Nat.mod_lt _ (by decide))).2

theorem zeroPadLoop_data (k : Nat) :
    ∀ ret : String, (zeroPadLoop k ret).data = List.replicate k '0' ++ ret.data := by
  induction k with
  | zero => intro ret; simp [zeroPadLoop]
  | succ k ih =>
    intro ret
    rw [zeroPadLoop, ih, String.data_append, List.replicate_succ']
    simp

theorem foldl_replicate_zero (k : Nat) (l : List Char) :
    (List.replicate k '0' ++ l).foldl (fun acc c => acc * 10 + (c.toNat - 48)) 0 =
      l.foldl (fun acc c => acc * 10 + (c.toNat - 48)) 0 := by
  induction k with
  | zero => simp
  | succ k ih =>
    rw [List.replicate_succ, List.cons_append, List.foldl_cons]
    exact ih

theorem ZeroPadNumber_data (m : Nat) :
    (ZeroPadNumber (m : Int)).data =
      List.replicate (6 - (Nat.toDigits 10 m).length) '0' ++ Nat.toDigits 10 m := by
  have hs : toString ((m : Nat) : Int) = (Nat.toDigits 10 m).asString := rfl
  unfold ZeroPadNumber
  simp only [hs]
  rw [zeroPadLoop_data]
  have hl : (Nat.toDigits 10 m).asString.length = (Nat.toDigits 10 m).length := rfl
  rw [hl]
  have : ((6 : Int) - ((Nat.toDigits 10 m).length : Int)).toNat =
      6 - (Nat.toDigits 10 m).length := by omega
  rw [this]
  rfl

theorem decimalValue_ZeroPadNumber (m : Nat) : decimalValue (ZeroPadNumber (m : Int)) = m := by
  unfold decimalValue
  rw [ZeroPadNumber_data, foldl_replicate_zero, toDigits_value]

/-- C15. For every frame index `n` with `0 ≤ n < 1000000`, `ZeroPadNumber(n)` is a string of
exactly 6 characters; for every `n ≥ 0` its characters are decimal digits and the number it
denotes is `n`, so that distinct frame indices give distinct names; and for every
`n ≥ 1000000` it is the decimal rendering of `n` without padding. -/
theorem ZeroPadNumber_spec (n : Int) (h0 : 0 ≤ n) :
    (n < 1000000 → (ZeroPadNumber n).length = 6) ∧
      (∀ c ∈ (ZeroPadNumber n).data, c.isDigit = true) ∧
      decimalValue (ZeroPadNumber n) = n.toNat ∧
      (1000000 ≤ n → ZeroPadNumber n = toString n) ∧
      (∀ m : Int, 0 ≤ m → ZeroPadNumber n = ZeroPadNumber m → n = m) := by
  obtain ⟨k, rfl⟩ := Int.eq_ofNat_of_zero_le h0
  refine ⟨?_, ?_, ?_, ?_, ?_⟩
  · intro hlt
    have hk : k < 10 ^ (5 + 1) := by
      have : (k : Int) < 1000000 := hlt
      norm_num
      omega
    have hle := toDigits_length_le 5 k hk
    show (ZeroPadNumber (k : Int)).data.length = 6
    rw [ZeroPadNumber_data, List.length_append, List.length_replicate]
    omega
  · intro c hc
    rw [ZeroPadNumber_data, List.mem_append] at hc
    rcases hc with hc | hc
    · rw [(List.mem_replicate.mp hc).2]
      decide
    · exact toDigits_isDigit k c hc
  · rw [decimalValue_ZeroPadNumber]
    rfl
  · intro hge
    have hk : 10 ^ 6 ≤ k := by
      have : (1000000 : Int) ≤ (k : Int) := hge
      norm_num
      omega
    have hlen := toDigits_length_gt 6 k hk
    apply String.ext
    rw [ZeroPadNumber_data]
    have : 6 - (Nat.toDigits 10 k).length = 0 := by omega
    rw [this]
    rfl
  · intro m hm heq
    obtain ⟨j, rfl⟩ := Int.eq_ofNat_of_zero_le hm
    have := congrArg decimalValue heq
    rw [decimalValue_ZeroPadNumber, decimalValue_ZeroPadNumber] at this
    rw [this]

/-- An instance: frame 5 is named "000005", frame 1234567 is named "1234567". -/
theorem ZeroPadNumber_spec_witness :
    (0 : Int) ≤ 5 ∧ ZeroPadNumber 5 = "000005" ∧ (ZeroPadNumber 5).length = 6 ∧
      decimalValue (ZeroPadNumber 5) = (5 : Int).toNat ∧
      (0 : Int) ≤ 1234567 ∧ ZeroPadNumber 1234567 = toString (1234567 : Int) ∧
      ZeroPadNumber 1234567 = "1234567" :=
  ⟨by decide, by decide, (ZeroPadNumber_spec 5 (by decide)).1 (by decide),
    (ZeroPadNumber_spec 5 (by decide)).2.2.1, by decide,
    (ZeroPadNumber_spec 1234567 (by decide)).2.2.2.1 (by decide), by decide⟩

/-! ### `isSpartanLog` -/

/-- C17. For every string `value`, `isSpartanLog(value)` returns true if and only if
`value` has length at least 4 and its last four characters are ".bag", in other words if
and only if `value` is some string followed by ".bag"; so ".bag" itself is accepted, and
"bag", "log.BAG" and "log.bag " are rejected. -/
theorem isSpartanLog_iff (value : String) :
    (isSpartanLog value = true ↔
        4 ≤ value.length ∧ value.data.drop (value.length - 4) = ['.', 'b', 'a', 'g']) ∧
      (isSpartanLog value = true ↔ ∃ stem : String, value = stem ++ ".bag") ∧
      isSpartanLog ".bag" = true ∧
      isSpartanLog "bag" = false ∧
      isSpartanLog "log.BAG" = false ∧
      isSpartanLog "log.bag " = false := by
  have hlen : ".bag".length = 4 := rfl
  have hdata : ".bag".data = ['.', 'b', 'a', 'g'] := rfl
  have key : isSpartanLog value = true ↔
      4 ≤ value.length ∧ value.data.drop (value.length - 4) = ['.', 'b', 'a', 'g'] := by
    unfold isSpartanLog
    simp only [hlen, hdata]
    by_cases h : 4 > value.length
    · rw [if_pos h]
      constructor
      · intro hf; cases hf
      · intro hf; omega
    · rw [if_neg h, decide_eq_true_eq, List.take_reverse, List.reverse_inj]
      have hl : value.data.length = value.length := rfl
      rw [hl]
      constructor
      · intro hf; exact ⟨by omega, hf.symm⟩
      · intro hf; exact hf.2.symm
  refine ⟨key, ?_, by decide, by decide, by decide, by decide⟩
  rw [key]
  constructor
  · rintro ⟨_, hdrop⟩
    refine ⟨⟨value.data.take (value.length - 4)⟩, ?_⟩
    apply String.ext
    rw [String.data_append, hdata, ← hdrop]
    exact (List.take_append_drop _ _).symm
  · rintro ⟨stem, rfl⟩
    have hl : (stem ++ ".bag").length = stem.length + 4 := by
      rw [String.length_append, hlen]
    refine ⟨by omega, ?_⟩
    rw [hl, String.data_append, hdata, Nat.add_sub_cancel]
    exact List.drop_left _ _

/-! ### Stepping under the `hasMore` guard -/

/-- When both records are present at the cursor, `getCore` does not end with the
exception of the bounds-checked lookup. -/
theorem getCore_not_outOfRange (be : Backend) (r : SpartanLogReader) (img_rgb img_d : Image)
    (hrgb : vectorAt r.log_rgbd_data.images_rgb r.currentFrame = some img_rgb)
    (hd : vectorAt r.log_rgbd_data.images_d r.currentFrame = some img_d) :
    (getCore be r).1 ≠ Outcome.outOfRange := by
  unfold getCore
  simp only [hrgb, hd]
  repeat' split
  all_goals simp

/-- After `getCore` the cursor is where it was or one step further. -/
theorem getCore_cursor_cases (be : Backend) (r : SpartanLogReader) :
    (getCore be r).2.currentFrame = r.currentFrame ∨
      (getCore be r).2.currentFrame = r.currentFrame + 1 := by
  by_cases hok : (getCore be r).1 = Outcome.ok
  · exact Or.inr (getCore_ok_cursor be r hok).1
  · exact Or.inl (getCore_fail_cursor be r hok)

/-- The guarded discipline keeps the cursor at 0 or at most at `numFrames - 1`, and every
lookup it causes is in range and not at the last frame. -/
theorem guarded_invariant (be : Backend) (calls : List Call) :
    ∀ r : SpartanLogReader, r.WellFormed → 0 ≤ r.currentFrame →
      (r.currentFrame = 0 ∨ r.currentFrame + 1 ≤ r.numFrames) →
      guardedCalls be r calls = true →
      (∀ p ∈ decodeTrace be r calls,
          0 ≤ p.1 ∧ p.1 + 1 < r.numFrames ∧ p.2 ≠ Outcome.outOfRange) ∧
        (∀ k : Nat, 0 ≤ (runCalls be r (calls.take k)).currentFrame ∧
          ((runCalls be r (calls.take k)).currentFrame = 0 ∨
            (runCalls be r (calls.take k)).currentFrame + 1 ≤ r.numFrames)) := by
  induction calls with
  | nil =>
    intro r _ h0 h1 _
    refine ⟨fun p hp => absurd hp (List.not_mem_nil p), ?_⟩
    intro k
    simp only [List.take_nil, runCalls, List.foldl_nil]
    exact ⟨h0, h1⟩
  | cons c rest ih =>
    intro r hwf h0 h1 hg
    -- a call that leaves a state `s` with the same `numFrames`, from which the rest is guarded
    have pure : ∀ s : SpartanLogReader, Call.run be r c = s → s.WellFormed →
        s.numFrames = r.numFrames → 0 ≤ s.currentFrame →
        (s.currentFrame = 0 ∨ s.currentFrame + 1 ≤ s.numFrames) →
        guardedCalls be s rest = true →
        (∀ p ∈ decodeTrace be s rest,
            0 ≤ p.1 ∧ p.1 + 1 < r.numFrames ∧ p.2 ≠ Outcome.outOfRange) ∧
          (∀ k : Nat, 0 ≤ (runCalls be r ((c :: rest).take k)).currentFrame ∧
            ((runCalls be r ((c :: rest).take k)).currentFrame = 0 ∨
              (runCalls be r ((c :: rest).take k)).currentFrame + 1 ≤ r.numFrames)) := by
      intro s hs swf sn s0 s1 sg
      obtain ⟨t1, t2⟩ := ih s swf s0 s1 sg
      rw [sn] at t1 t2
      refine ⟨t1, ?_⟩
      intro k
      cases k with
      | zero =>
        simp only [List.take_zero, runCalls, List.foldl_nil]
        exact ⟨h0, h1⟩
      | succ k =>
        simp only [List.take_succ_cons, runCalls, List.foldl_cons]
        rw [hs]
        exact t2 k
    cases c with
    | getNext =>
      have hg' : hasMore r = true ∧ guardedCalls be (Call.run be r Call.getNext) rest = true := by
        simpa [guardedCalls] using hg
      obtain ⟨hm, hrest⟩ := hg'
      have hlt : r.currentFrame + 1 < r.numFrames := by simpa [hasMore] using hm
      obtain ⟨f1, _, _, _, _⟩ := getCore_frame be r
      have hcur := getCore_cursor_cases be r
      obtain ⟨p1, p2⟩ := pure (getCore be r).2 rfl (getCore_wellFormed be r hwf) f1
        (by rcases hcur with h | h <;> omega)
        (Or.inr (by rcases hcur with h | h <;> omega)) hrest
      refine ⟨?_, p2⟩
      intro p hp
      have hp' : p = (r.currentFrame, (getNext be r).1) ∨
          p ∈ decodeTrace be (Call.run be r Call.getNext) rest := by
        simpa [decodeTrace] using hp
      rcases hp' with hp' | hp'
      · subst hp'
        obtain ⟨wn, wl, _, _⟩ := hwf
        obtain ⟨a, ha⟩ := vectorAt_of_lt r.log_rgbd_data.images_rgb r.currentFrame h0 (by omega)
        obtain ⟨b, hb⟩ := vectorAt_of_lt r.log_rgbd_data.images_d r.currentFrame h0 (by omega)
        exact ⟨h0, hlt, getCore_not_outOfRange be r a b ha hb⟩
      · exact p1 p hp'
    | getBack => simp [guardedCalls] at hg
    | rewind =>
      have hw : (rewind r).WellFormed := hwf
      obtain ⟨p1, p2⟩ := pure (rewind r) rfl hw rfl (le_refl _) (Or.inl rfl)
        (by simpa [guardedCalls] using hg)
      exact ⟨by simpa [decodeTrace] using p1, p2⟩
    | fastForward frame =>
      obtain ⟨p1, p2⟩ := pure r rfl hwf rfl h0 h1 (by simpa [guardedCalls] using hg)
      exact ⟨by simpa [decodeTrace] using p1, p2⟩
    | hasMore =>
      obtain ⟨p1, p2⟩ := pure r rfl hwf rfl h0 h1 (by simpa [guardedCalls] using hg)
      exact ⟨by simpa [decodeTrace] using p1, p2⟩
    | rewound =>
      obtain ⟨p1, p2⟩ := pure r rfl hwf rfl h0 h1 (by simpa [guardedCalls] using hg)
      exact ⟨by simpa [decodeTrace] using p1, p2⟩
    | getNumFrames =>
      obtain ⟨p1, p2⟩ := pure r rfl hwf rfl h0 h1 (by simpa [guardedCalls] using hg)
      exact ⟨by simpa [decodeTrace] using p1, p2⟩

/-- C16 as stated fails on an empty reader: built from a bag without depth records it has
`N = 0`, the caller asks `hasMore()` and never calls `getNext`, and the cursor, 0, is
above `N - 1`. -/
theorem guarded_cursor_above_on_empty :
    getNumFrames (SpartanLogReader.construct colorOnlyBag 1 sampleLogData false) = 0 ∧
      guardedCalls sampleBackend (SpartanLogReader.construct colorOnlyBag 1 sampleLogData false)
        [Call.hasMore] = true ∧
      ¬ ((runCalls sampleBackend (SpartanLogReader.construct colorOnlyBag 1 sampleLogData false)
          [Call.hasMore]).currentFrame ≤
        getNumFrames (SpartanLogReader.construct colorOnlyBag 1 sampleLogData false) - 1) := by
  unfold SpartanLogReader.construct
  rw [loadBag_unfold]
  decide

/-- C16, amended. Starting from a freshly constructed or rewound reader (well-formed,
cursor 0), if the caller invokes `getNext()` only in states where `hasMore()` is true,
interleaved with any number of `rewind`, `fastForward`, `hasMore`, `rewound` and
`getNumFrames` calls and no `getBack`, then every record lookup in `getCore` is at an index
in `[0, N)` and does not end in the out-of-range exception, no lookup is at index `N - 1`
(the last frame is never decoded), and after every prefix of the calls the cursor is at
most `N - 1` when `N ≥ 1` and is 0 when `N = 0`. -/
theorem guarded_stepping (be : Backend) (r : SpartanLogReader) (calls : List Call)
    (hwf : r.WellFormed) (hcf : r.currentFrame = 0)
    (hg : guardedCalls be r calls = true) :
    (∀ p ∈ decodeTrace be r calls,
        0 ≤ p.1 ∧ p.1 < r.numFrames ∧ p.1 ≠ r.numFrames - 1 ∧ p.2 ≠ Outcome.outOfRange) ∧
      (∀ k : Nat, 0 ≤ (runCalls be r (calls.take k)).currentFrame ∧
        (1 ≤ r.numFrames → (runCalls be r (calls.take k)).currentFrame ≤ r.numFrames - 1) ∧
        (r.numFrames = 0 → (runCalls be r (calls.take k)).currentFrame = 0)) := by
  obtain ⟨h1, h2⟩ := guarded_invariant be calls r hwf (by omega) (Or.inl hcf) hg
  constructor
  · intro p hp
    obtain ⟨a, b, c⟩ := h1 p hp
    exact ⟨a, by omega, by omega, c⟩
  · intro k
    obtain ⟨a, b⟩ := h2 k
    refine ⟨a, ?_, ?_⟩
    · intro _; rcases b with b | b <;> omega
    · intro hz; rcases b with b | b <;> omega

/-- An instance: a reader of two frames; the caller decodes frame 0, finds `hasMore()`
false, rewinds and decodes frame 0 again. Frame 1 is never looked up. -/
theorem guarded_stepping_witness :
    twoFrameReader.WellFormed ∧ twoFrameReader.currentFrame = 0 ∧
      guardedCalls sampleBackend twoFrameReader
        [Call.hasMore, Call.getNext, Call.hasMore, Call.rewind, Call.getNext] = true ∧
      decodeTrace sampleBackend twoFrameReader
        [Call.hasMore, Call.getNext, Call.hasMore, Call.rewind, Call.getNext] =
          [(0, Outcome.ok), (0, Outcome.ok)] ∧
      (∀ p ∈ decodeTrace sampleBackend twoFrameReader
          [Call.hasMore, Call.getNext, Call.hasMore, Call.rewind, Call.getNext],
        0 ≤ p.1 ∧ p.1 < twoFrameReader.numFrames ∧ p.1 ≠ twoFrameReader.numFrames - 1 ∧
          p.2 ≠ Outcome.outOfRange) ∧
      (∀ k : Nat,
        0 ≤ (runCalls sampleBackend twoFrameReader
          (([Call.hasMore, Call.getNext, Call.hasMore, Call.rewind, Call.getNext] :
            List Call).take k)).currentFrame ∧
        (1 ≤ twoFrameReader.numFrames →
          (runCalls sampleBackend twoFrameReader
            (([Call.hasMore, Call.getNext, Call.hasMore, Call.rewind, Call.getNext] :
              List Call).take k)).currentFrame ≤ twoFrameReader.numFrames - 1) ∧
        (twoFrameReader.numFrames = 0 →
          (runCalls sampleBackend twoFrameReader
            (([Call.hasMore, Call.getNext, Call.hasMore, Call.rewind, Call.getNext] :
              List Call).take k)).currentFrame = 0)) :=
  ⟨by decide, by decide, by decide, by decide,
    guarded_stepping sampleBackend twoFrameReader
      [Call.hasMore, Call.getNext, Call.hasMore, Call.rewind, Call.getNext]
      (by decide) (by decide) (by decide)⟩

end Spartan
